import Mathlib

/-!
Verification of the workout validation engine of `Raw_Trainer_Build`.

Shallow embedding of `src/domain/workout_model.py` (the inline validation
pipeline: `Exercise.from_dict`, `JobMode.from_str`, `Job.from_dict`,
`Job.from_dict_custom_sets`, `Job.from_dict_tabata`, `Stage.from_dict`,
`Workout.from_dict`) and of the v2 mode-normalization step of
`src/application/workout_loader.py` (`_MODE_SYNONYMS_V2`,
`_validate_and_normalize_modes_v2`).

Modelling conventions:
* YAML/Python values are modelled by the inductive `Val`.  Python floats are
  out of scope (no claim touches them); numeric scalars are `Int`.
* Python `dict`s are association lists with unique keys, iterated in
  insertion order; `d.get(k)` returns `Val.none` both for an absent key and
  for a key bound to `None`, exactly as `dict.get` does.
* Python truthiness (`x or y`) is `truthy` / `pyOr`.
* `isinstance(x, int)` accepts Python `bool`s (`True == 1`); this is
  `pyIntVal`.
* `str.strip()` / `str.lower()` / `str.upper()` are `pyStrip` / `pyLower` /
  `pyUpper` (ASCII, faithful for the inputs in scope); `repr(s)` for the
  quote-free, printable strings reaching error messages is `pyRepr`.
* Each Python `raise SomeValidationError(message)` site becomes a
  constructor of a structured error type (`ExErr`, `JobErr`, `StageErr`,
  `WorkoutErr`); the `message` functions reproduce the exact f-string of the
  source, so message-level claims are stated through them.
* The in-place mutation performed by `_validate_and_normalize_modes_v2`
  (`job["MODE"] = canon`) is modelled by explicit state passing: the function
  returns the caller's tree as it stands after the call.
-/

/-- A parsed YAML / Python value (floats out of scope). -/
inductive Val where
  | none : Val
  | b (v : Bool) : Val
  | i (v : Int) : Val
  | s (v : String) : Val
  | list (vs : List Val) : Val
  | dict (kvs : List (String × Val)) : Val

/-- A Python mapping node: insertion-ordered association list. -/
abbrev PyDict := List (String × Val)

/-- `d.get(k)`: first binding of `k`, `Val.none` when absent. -/
def pyGet : PyDict → String → Val
  | [], _ => .none
  | (k', v') :: rest, k => if k' = k then v' else pyGet rest k

/-- `k in d` membership test on a Python dict. -/
def hasKey : PyDict → String → Bool
  | [], _ => false
  | (k', _) :: rest, k => if k' = k then true else hasKey rest k

/-- `d[k] = v`: replace the binding in place, or append a new one. -/
def dictSet : PyDict → String → Val → PyDict
  | [], k, v => [(k, v)]
  | (k', v') :: rest, k, v =>
    if k' = k then (k, v) :: rest else (k', v') :: dictSet rest k v

/-- Python truthiness of a value. -/
def truthy : Val → Bool
  | .none => false
  | .b v => v
  | .i v => v != 0
  | .s v => v != ""
  | .list vs => !vs.isEmpty
  | .dict kvs => !kvs.isEmpty

/-- Python `a or b` on values. -/
def pyOr (a b : Val) : Val := if truthy a then a else b

/-- The characters `str.strip()` removes. -/
def isPySpace (c : Char) : Bool :=
  c == ' ' || c == '\t' || c == '\n' || c == '\r' || c == '\x0b' || c == '\x0c'

/-- `str.strip()`: drop leading and trailing whitespace. -/
def pyStrip (s : String) : String :=
  ⟨((s.data.dropWhile isPySpace).reverse.dropWhile isPySpace).reverse⟩

/-- `str.lower()` (ASCII, faithful for the inputs in scope). -/
def pyLower (s : String) : String := ⟨s.data.map Char.toLower⟩

/-- `str.upper()` (ASCII, faithful for the inputs in scope). -/
def pyUpper (s : String) : String := ⟨s.data.map Char.toUpper⟩

/-- `isinstance(x, int)` view: Python `bool` is an `int` (`True == 1`). -/
def pyIntVal : Val → Option Int
  | .i n => some n
  | .b true => some 1
  | .b false => some 0
  | _ => none

/-- `isinstance(x, str)` view. -/
def pyStrVal : Val → Option String
  | .s v => some v
  | _ => none

/-- `repr(s)` for strings without quotes/backslashes/control characters
(the only ones reaching error messages in the claims). -/
def pyRepr (s : String) : String := "'" ++ s ++ "'"

/-- Fuel-indexed Python `repr` of a value (fuel keeps recursion structural;
`sizeOf` is always enough fuel). -/
def pyReprValF : Nat → Val → String
  | _, .none => "None"
  | _, .b true => "True"
  | _, .b false => "False"
  | _, .i n => toString n
  | _, .s v => pyRepr v
  | 0, .list _ => "[...]"
  | 0, .dict _ => "\x7b...\x7d"
  | n + 1, .list vs =>
    "[" ++ String.intercalate ", " (vs.map (pyReprValF n)) ++ "]"
  | n + 1, .dict kvs =>
    "\x7b" ++
      String.intercalate ", "
        (kvs.map (fun kv => pyRepr kv.1 ++ ": " ++ pyReprValF n kv.2)) ++
    "\x7d"

mutual

/-- Nesting depth of a value (used only as fuel for `pyReprValF`). -/
def Val.depth : Val → Nat
  | .none | .b _ | .i _ | .s _ => 1
  | .list vs => Val.depthList vs + 1
  | .dict kvs => Val.depthDict kvs + 1

def Val.depthList : List Val → Nat
  | [] => 0
  | v :: rest => max (Val.depth v) (Val.depthList rest)

def Val.depthDict : List (String × Val) → Nat
  | [] => 0
  | kv :: rest => max (Val.depth kv.2) (Val.depthDict rest)

end

/-- Python `repr(v)`. -/
def pyReprVal (v : Val) : String := pyReprValF v.depth v

/-- Python `str(v)` (for strings, the string itself; containers fall back to
their `repr`, as in Python). -/
def pyStr : Val → String
  | .s v => v
  | .none => "None"
  | .b true => "True"
  | .b false => "False"
  | .i n => toString n
  | v => pyReprVal v

-- String length limits (`workout_model.py`, mixed policy)
def MAX_NAME_LEN : Nat := 40
def MAX_DESC_LEN : Nat := 300
def MAX_CADENCE_LEN : Nat := 20
def MAX_NOTES_LEN : Nat := 200
def MAX_EXTRA_KEY_LEN : Nat := 30
def MAX_EXTRA_VAL_LEN : Nat := 100

/-- `_truncate(value, max_len)` on a string: `value[:max_len]` when too
long, identity otherwise. -/
def _truncate (s : String) (maxLen : Nat) : String :=
  if s.length ≤ maxLen then s else ⟨s.data.take maxLen⟩

-- ======================================================================
-- Exercise (`Exercise.from_dict`)
-- ======================================================================

/-- One constructor per `raise ExerciseValidationError(...)` site. -/
inductive ExErr where
  | notDict
  | missingName
  | nameTooLong
  | repsNotInt (name : String)
  | wtsNotInt (name : String)
  | missingRepsOrWts (name : String)
  | weightNotNumber (name : String)
  | extraKeyTooLong (k : String)
deriving DecidableEq, Repr

/-- The exact message of each `ExerciseValidationError`. -/
def ExErr.message : ExErr → String
  | .notDict => "Exercise data must be a dict"
  | .missingName => "missing required field 'NAME'"
  | .nameTooLong =>
    "field 'NAME' exceeds max length " ++ toString MAX_NAME_LEN ++ " characters"
  | .repsNotInt n => "Exercise " ++ pyRepr n ++ ": reps must be an integer"
  | .wtsNotInt n =>
    "Exercise " ++ pyRepr n ++ ": work_time_in_seconds must be an integer"
  | .missingRepsOrWts n =>
    "Exercise " ++ pyRepr n ++
      ": at least one of 'reps' or 'work_time_in_seconds' must be present"
  | .weightNotNumber n => "Exercise " ++ pyRepr n ++ ": weight must be a number"
  | .extraKeyTooLong k =>
    "extra field name '" ++ k ++ "' exceeds max length " ++
      toString MAX_EXTRA_KEY_LEN

/-- The `Exercise` dataclass (weight kept as the raw numeric value). -/
structure Exercise where
  name : String
  reps : Option Int := none
  work_time_in_seconds : Option Int := none
  weight : Option Val := none
  notes : Option String := none
  help : Option String := none
  extra : PyDict := []

/-- `raw_name = data.get("NAME") or data.get("name")`, string check, strip,
strict length check. -/
def Exercise.parseName (d : PyDict) : Except ExErr String :=
  match pyStrVal (pyOr (pyGet d "NAME") (pyGet d "name")) with
  | some raw =>
    if pyStrip raw = "" then .error .missingName
    else if (pyStrip raw).length > MAX_NAME_LEN then .error .nameTooLong
    else .ok (pyStrip raw)
  | none => .error .missingName

/-- Strict optional-int field: present values must satisfy
`isinstance(x, int)`. -/
def parseOptIntField (d : PyDict) (key : String) {ε} (err : ε) :
    Except ε (Option Int) :=
  match pyGet d key with
  | .none => .ok none
  | v =>
    match pyIntVal v with
    | some n => .ok (some n)
    | none => .error err

/-- `weight`: strict `isinstance(weight_raw, (int, float))`; the raw numeric
is kept (floats are out of scope). -/
def Exercise.parseWeight (d : PyDict) (name : String) :
    Except ExErr (Option Val) :=
  match pyGet d "weight" with
  | .none => .ok none
  | v =>
    match pyIntVal v with
    | some _ => .ok (some v)
    | none => .error (.weightNotNumber name)

/-- First key in the list whose value is a string (the notes loop). -/
def firstStrVal (d : PyDict) : List String → Option String
  | [] => none
  | k :: rest =>
    match pyStrVal (pyGet d k) with
    | some s => some s
    | none => firstStrVal d rest

/-- Extra-field pass-through: skip core keys, strict cap on key length,
soft truncation of string values, insertion order preserved. -/
def collectExtra {ε} (mkErr : String → ε) (core : List String) :
    PyDict → Except ε PyDict
  | [] => .ok []
  | (k, v) :: rest =>
    if k ∈ core then collectExtra mkErr core rest
    else if k.length > MAX_EXTRA_KEY_LEN then .error (mkErr k)
    else
      let v' := match v with
        | .s sv =>
          if sv.length > MAX_EXTRA_VAL_LEN then
            Val.s (_truncate sv MAX_EXTRA_VAL_LEN)
          else v
        | _ => v
      (collectExtra mkErr core rest).map (fun tail => (k, v') :: tail)

def exerciseCoreKeys : List String :=
  ["NAME", "name", "reps", "work_time_in_seconds", "weight", "notes", "note",
   "DESCRIPTION", "Description", "description", "help"]

/-- `Exercise.from_dict`. -/
def Exercise.from_dict (data : Val) : Except ExErr Exercise :=
  match data with
  | .dict d =>
    Except.bind (Exercise.parseName d) fun name =>
    Except.bind (parseOptIntField d "reps" (ExErr.repsNotInt name)) fun reps =>
    Except.bind (parseOptIntField d "work_time_in_seconds"
        (ExErr.wtsNotInt name)) fun wts =>
    if reps.isNone && wts.isNone then .error (.missingRepsOrWts name)
    else
      Except.bind (Exercise.parseWeight d name) fun weight =>
      Except.bind (collectExtra ExErr.extraKeyTooLong exerciseCoreKeys d)
        fun extra =>
      .ok
        { name, reps, work_time_in_seconds := wts, weight,
          notes := (firstStrVal d
              ["notes", "note", "DESCRIPTION", "Description", "description"]
            ).map (fun s => _truncate (pyStrip s) MAX_NOTES_LEN),
          help := (pyStrVal (pyGet d "help")).map
            (fun s => _truncate (pyStrip s) MAX_NOTES_LEN),
          extra }
  | _ => .error .notDict

-- ======================================================================
-- JobMode (`JobMode.from_str`)
-- ======================================================================

inductive JobMode where
  | CUSTOM_SETS | TABATA | EMOM | AMRAP | FOR_TIME | EDT
deriving DecidableEq, Repr

/-- The enum's string value. -/
def JobMode.value : JobMode → String
  | .CUSTOM_SETS => "custom_sets"
  | .TABATA => "TABATA"
  | .EMOM => "EMOM"
  | .AMRAP => "AMRAP"
  | .FOR_TIME => "for_time"
  | .EDT => "EDT"

/-- One constructor per `raise JobValidationError(...)` site (generic parser
plus the two legacy factories). -/
inductive JobErr where
  | notDict
  | missingName
  | nameTooLong
  | missingMode
  | modeNotString
  | unsupportedMode (s : String)
  | descNotString
  | roundsNotInt
  | roundsNotPositive
  | wtsNotInt
  | wtmNotInt
  | wtmNotPositive
  | edtRequiresWtm
  | rtiNotInt
  | rbeNotInt
  | rbrNotInt
  | cadenceTooLong
  | mutuallyExclusiveFlags
  | exercisesNotList
  | exerciseNotObject (idx : Nat)
  | invalidExercise (idx : Nat) (inner : ExErr)
  | forTimeNeedsExercises
  | forTimeRepsMissing (idx : Nat)
  | edtNeedsExercises
  | edtWtsForbidden (idx : Nat)
  | extraKeyTooLong (k : String)
  | missingRounds
  | missingExercises
  | exercisesEmpty
  | tabataWrongMode
  | tabataRepsMissing (idx : Nat)
deriving DecidableEq, Repr

/-- The exact message of each `JobValidationError`. -/
def JobErr.message : JobErr → String
  | .notDict => "Job data must be a dict"
  | .missingName => "missing required field 'NAME'"
  | .nameTooLong =>
    "field 'NAME' exceeds max length " ++ toString MAX_NAME_LEN ++ " characters"
  | .missingMode => "missing required field 'MODE'"
  | .modeNotString => "Job MODE must be a string"
  | .unsupportedMode s => "unsupported MODE " ++ pyRepr s
  | .descNotString => "field 'description' must be a string"
  | .roundsNotInt => "field 'Rounds' must be an integer"
  | .roundsNotPositive => "field 'Rounds' must be a positive integer"
  | .wtsNotInt => "field 'work_time_in_seconds' must be an integer"
  | .wtmNotInt => "field 'work_time_in_minutes' must be an integer"
  | .wtmNotPositive => "field 'work_time_in_minutes' must be a positive integer"
  | .edtRequiresWtm => "EDT job requires 'work_time_in_minutes'"
  | .rtiNotInt => "field 'rest_time_in_seconds' must be an integer"
  | .rbeNotInt => "field 'Rest_between_exercises_in_seconds' must be an integer"
  | .rbrNotInt => "field 'Rest_between_rounds_in_seconds' must be an integer"
  | .cadenceTooLong =>
    "field 'cadence' exceeds max length " ++ toString MAX_CADENCE_LEN ++
      " characters"
  | .mutuallyExclusiveFlags =>
    "Eccentric (NEG) and Isometric (HOLD) cannot both be true"
  | .exercisesNotList => "field 'EXERCISES' must be a list"
  | .exerciseNotObject idx =>
    "invalid exercise at index " ++ toString idx ++ ": must be an object"
  | .invalidExercise idx inner =>
    "invalid exercise at index " ++ toString idx ++ ": " ++ inner.message
  | .forTimeNeedsExercises =>
    "FOR_TIME job requires EXERCISES list with at least one item"
  | .forTimeRepsMissing idx =>
    "FOR_TIME job exercise at index " ++ toString idx ++ " must define 'reps'"
  | .edtNeedsExercises => "EDT job requires EXERCISES list with at least one item"
  | .edtWtsForbidden idx =>
    "EDT job exercise at index " ++ toString idx ++
      " must not define 'work_time_in_seconds'"
  | .extraKeyTooLong k =>
    "extra field name '" ++ k ++ "' exceeds max length " ++
      toString MAX_EXTRA_KEY_LEN
  | .missingRounds => "missing required field 'Rounds'"
  | .missingExercises => "missing required field 'EXERCISES'"
  | .exercisesEmpty => "field 'EXERCISES' must contain at least one item"
  | .tabataWrongMode => "MODE for TABATA job must be 'TABATA'"
  | .tabataRepsMissing idx =>
    "invalid exercise at index " ++ toString idx ++
      ": missing required field 'reps'"

/-- `JobMode.from_str`: strip, lowercase, match the six names, else
`unsupported MODE {s!r}` with the *stripped* string. -/
def JobMode.from_str (raw : Val) : Except JobErr JobMode :=
  match pyStrVal raw with
  | none => .error .modeNotString
  | some sv =>
    if pyLower (pyStrip sv) = "custom_sets" then .ok .CUSTOM_SETS
    else if pyLower (pyStrip sv) = "tabata" then .ok .TABATA
    else if pyLower (pyStrip sv) = "emom" then .ok .EMOM
    else if pyLower (pyStrip sv) = "amrap" then .ok .AMRAP
    else if pyLower (pyStrip sv) = "for_time" then .ok .FOR_TIME
    else if pyLower (pyStrip sv) = "edt" then .ok .EDT
    else .error (.unsupportedMode (pyStrip sv))

-- ======================================================================
-- Job (`Job.from_dict` and the legacy factories)
-- ======================================================================

/-- The `Job` dataclass. -/
structure Job where
  name : String
  mode : JobMode
  description : Option String := none
  rounds : Option Int := none
  work_time_in_seconds : Option Int := none
  work_time_in_minutes : Option Int := none
  rest_time_in_seconds : Option Int := none
  rest_between_exercises_in_seconds : Option Int := none
  rest_between_rounds_in_seconds : Option Int := none
  cadence : Option String := none
  eccentric_neg : Bool := false
  isometric_hold : Bool := false
  exercises : List Exercise := []
  extra : PyDict := []

/-- Strict optional-int on an already-fetched value. -/
def parseOptIntVal {ε} (v : Val) (err : ε) : Except ε (Option Int) :=
  match v with
  | .none => .ok none
  | v =>
    match pyIntVal v with
    | some n => .ok (some n)
    | none => .error err

def Job.parseName (d : PyDict) : Except JobErr String :=
  match pyStrVal (pyOr (pyGet d "NAME") (pyGet d "name")) with
  | some raw =>
    if pyStrip raw = "" then .error .missingName
    else if (pyStrip raw).length > MAX_NAME_LEN then .error .nameTooLong
    else .ok (pyStrip raw)
  | none => .error .missingName

/-- `MODE` required; `JobMode.from_str(str(raw_mode))`. -/
def Job.parseMode (d : PyDict) : Except JobErr JobMode :=
  match pyGet d "MODE" with
  | .none => .error .missingMode
  | v => JobMode.from_str (.s (pyStr v))

def Job.parseDescription (d : PyDict) : Except JobErr (Option String) :=
  match pyOr (pyGet d "description") (pyGet d "Description") with
  | .none => .ok none
  | v =>
    match pyStrVal v with
    | some sv => .ok (some (_truncate (pyStrip sv) MAX_DESC_LEN))
    | none => .error .descNotString

/-- Common `Rounds` parsing plus the per-mode defaults
(TABATA → 8, FOR_TIME → 1, EDT → suppressed). -/
def Job.parseRounds (d : PyDict) (mode : JobMode) : Except JobErr (Option Int) :=
  let roundsRaw := if hasKey d "Rounds" then pyGet d "Rounds" else pyGet d "rounds"
  Except.bind
    (match roundsRaw with
      | .none => .ok none
      | v =>
        match pyIntVal v with
        | some n => if n ≤ 0 then .error .roundsNotPositive else .ok (some n)
        | none => .error .roundsNotInt)
    fun rounds =>
      let r1 := if mode = .TABATA && rounds.isNone then some (8 : Int) else rounds
      let r2 := if mode = .FOR_TIME && r1.isNone then some (1 : Int) else r1
      .ok (if mode = .EDT then none else r2)

/-- `work_time_in_minutes`: strict positive int; EDT requires it. -/
def Job.parseWtm (d : PyDict) (mode : JobMode) : Except JobErr (Option Int) :=
  Except.bind
    (match pyGet d "work_time_in_minutes" with
      | .none => .ok none
      | v =>
        match pyIntVal v with
        | some n => if n ≤ 0 then .error .wtmNotPositive else .ok (some n)
        | none => .error .wtmNotInt)
    fun wtm =>
      if mode = .EDT && wtm.isNone then .error .edtRequiresWtm else .ok wtm

def Job.parseCadence (d : PyDict) : Except JobErr (Option String) :=
  match pyStrVal (pyOr (pyGet d "cadence") (pyGet d "Cadence")) with
  | some sv =>
    if (pyStrip sv).length > MAX_CADENCE_LEN then .error .cadenceTooLong
    else .ok (some (pyStrip sv))
  | none => .ok none

/-- `data.get("Eccentric (NEG)") or data.get("eccentric_neg")`. -/
def eccRawOf (d : PyDict) : Val :=
  pyOr (pyGet d "Eccentric (NEG)") (pyGet d "eccentric_neg")

/-- `data.get("isometric (HOLD)") or data.get("Isometric (HOLD)") or
data.get("isometric_hold")`. -/
def isoRawOf (d : PyDict) : Val :=
  pyOr (pyOr (pyGet d "isometric (HOLD)") (pyGet d "Isometric (HOLD)"))
    (pyGet d "isometric_hold")

/-- Flag coercion: native bool, or stripped lowercased string in
`{"true","yes","1"}`; everything else is false; never fails. -/
def coerceFlag : Val → Bool
  | .b v => v
  | .s sv =>
    let t := pyLower (pyStrip sv)
    t == "true" || t == "yes" || t == "1"
  | _ => false

/-- The fields parsed before the exclusivity-flag check, in source order. -/
structure JobCommon where
  name : String
  mode : JobMode
  description : Option String
  rounds : Option Int
  wts : Option Int
  wtm : Option Int
  rti : Option Int
  rbe : Option Int
  rbr : Option Int
  cadence : Option String

def Job.parseCommon (d : PyDict) : Except JobErr JobCommon :=
  Except.bind (Job.parseName d) fun name =>
  Except.bind (Job.parseMode d) fun mode =>
  Except.bind (Job.parseDescription d) fun description =>
  Except.bind (Job.parseRounds d mode) fun rounds =>
  Except.bind (parseOptIntVal (pyGet d "work_time_in_seconds") JobErr.wtsNotInt)
    fun wts =>
  Except.bind (Job.parseWtm d mode) fun wtm =>
  Except.bind (parseOptIntVal (pyGet d "rest_time_in_seconds") JobErr.rtiNotInt)
    fun rti =>
  Except.bind (parseOptIntVal
      (pyOr (pyGet d "Rest_between_exercises_in_seconds")
        (pyGet d "rest_between_exercises_in_seconds")) JobErr.rbeNotInt)
    fun rbe =>
  Except.bind (parseOptIntVal
      (pyOr (pyGet d "Rest_between_rounds_in_seconds")
        (pyGet d "rest_between_rounds_in_seconds")) JobErr.rbrNotInt)
    fun rbr =>
  Except.bind (Job.parseCadence d) fun cadence =>
  .ok { name, mode, description, rounds, wts, wtm, rti, rbe, rbr, cadence }

def Job.exercisesRaw (d : PyDict) : Val :=
  pyOr (pyOr (pyGet d "EXERCISES") (pyGet d "Exercises")) (pyGet d "exercises")

/-- The `enumerate(exs_raw)` loop: dict check, then `Exercise.from_dict`,
errors wrapped with the index. -/
def Job.parseExList : Nat → List Val → Except JobErr (List Exercise)
  | _, [] => .ok []
  | idx, e :: rest =>
    match e with
    | .dict _ =>
      match Exercise.from_dict e with
      | .ok ex => (Job.parseExList (idx + 1) rest).map (fun tail => ex :: tail)
      | .error exc => .error (.invalidExercise idx exc)
    | _ => .error (.exerciseNotObject idx)

def Job.parseExercises (d : PyDict) : Except JobErr (List Exercise) :=
  match Job.exercisesRaw d with
  | .none => .ok []
  | .list l => Job.parseExList 0 l
  | _ => .error .exercisesNotList

def Job.forTimeLoop : Nat → List Exercise → Except JobErr Unit
  | _, [] => .ok ()
  | idx, e :: rest =>
    if e.reps.isNone then .error (.forTimeRepsMissing idx)
    else Job.forTimeLoop (idx + 1) rest

def Job.edtLoop : Nat → List Exercise → Except JobErr Unit
  | _, [] => .ok ()
  | idx, e :: rest =>
    if e.work_time_in_seconds.isSome then .error (.edtWtsForbidden idx)
    else Job.edtLoop (idx + 1) rest

/-- The FOR_TIME and EDT mode-specific rules (the only modes the generic
parser has extra rules for). -/
def Job.checkModeRules (mode : JobMode) (exs : List Exercise) :
    Except JobErr Unit :=
  Except.bind
    (if mode = .FOR_TIME then
      (if exs.isEmpty then .error .forTimeNeedsExercises
       else Job.forTimeLoop 0 exs)
     else .ok ())
    fun _ =>
      if mode = .EDT then
        (if exs.isEmpty then .error .edtNeedsExercises else Job.edtLoop 0 exs)
      else .ok ()

def jobCoreKeys : List String :=
  ["NAME", "name", "MODE", "description", "Description", "Rounds", "rounds",
   "work_time_in_seconds", "work_time_in_minutes", "rest_time_in_seconds",
   "Rest_between_exercises_in_seconds", "rest_between_exercises_in_seconds",
   "Rest_between_rounds_in_seconds", "rest_between_rounds_in_seconds",
   "cadence", "Cadence", "Eccentric (NEG)", "eccentric_neg",
   "isometric (HOLD)", "Isometric (HOLD)", "isometric_hold",
   "EXERCISES", "Exercises", "exercises"]

/-- `Job.from_dict` (generic parser). -/
def Job.from_dict (data : Val) : Except JobErr Job :=
  match data with
  | .dict d =>
    Except.bind (Job.parseCommon d) fun c =>
    let ecc := coerceFlag (eccRawOf d)
    let iso := coerceFlag (isoRawOf d)
    if ecc && iso then .error .mutuallyExclusiveFlags
    else
      Except.bind (Job.parseExercises d) fun exercises =>
      Except.bind (Job.checkModeRules c.mode exercises) fun _ =>
      Except.bind (collectExtra JobErr.extraKeyTooLong jobCoreKeys d) fun extra =>
      .ok
        { name := c.name, mode := c.mode, description := c.description,
          rounds := c.rounds, work_time_in_seconds := c.wts,
          work_time_in_minutes := c.wtm, rest_time_in_seconds := c.rti,
          rest_between_exercises_in_seconds := c.rbe,
          rest_between_rounds_in_seconds := c.rbr, cadence := c.cadence,
          eccentric_neg := ecc, isometric_hold := iso, exercises, extra }
  | _ => .error .notDict

/-- Exercise pre-validation loop of `from_dict_custom_sets`. -/
def Job.customSetsExLoop : Nat → List Val → Except JobErr Unit
  | _, [] => .ok ()
  | idx, e :: rest =>
    match e with
    | .dict _ =>
      match Exercise.from_dict e with
      | .ok _ => Job.customSetsExLoop (idx + 1) rest
      | .error exc => .error (.invalidExercise idx exc)
    | _ => .error (.exerciseNotObject idx)

/-- `Job.from_dict_custom_sets` (legacy factory): explicit checks, then
delegates to `Job.from_dict`. -/
def Job.from_dict_custom_sets (data : Val) : Except JobErr Job :=
  match data with
  | .dict d =>
    match pyStrVal (pyGet d "MODE") with
    | none => .error .missingMode
    | some modeRaw =>
      if pyLower (pyStrip modeRaw) ≠ "custom_sets" then
        .error (.unsupportedMode modeRaw)
      else if !truthy (pyOr (pyGet d "NAME") (pyGet d "name")) then
        .error .missingName
      else if !hasKey d "Rounds" then .error .missingRounds
      else
        match pyIntVal (pyGet d "Rounds") with
        | none => .error .roundsNotInt
        | some r =>
          if r ≤ 0 then .error .roundsNotPositive
          else if !hasKey d "EXERCISES" then .error .missingExercises
          else
            match pyGet d "EXERCISES" with
            | .list exs =>
              if exs.isEmpty then .error .exercisesEmpty
              else
                Except.bind (Job.customSetsExLoop 0 exs) fun _ =>
                  Job.from_dict data
            | _ => .error .exercisesNotList
  | _ => .error .notDict

/-- Exercise pre-validation loop of `from_dict_tabata`: each exercise node
must *contain* the key `reps`. -/
def Job.tabataExLoop : Nat → List Val → Except JobErr Unit
  | _, [] => .ok ()
  | idx, e :: rest =>
    match e with
    | .dict ed =>
      if !hasKey ed "reps" then .error (.tabataRepsMissing idx)
      else
        match Exercise.from_dict e with
        | .ok _ => Job.tabataExLoop (idx + 1) rest
        | .error exc => .error (.invalidExercise idx exc)
    | _ => .error (.exerciseNotObject idx)

/-- Tail of `from_dict_tabata` after the Rounds handling (`d` is the possibly
copied-and-defaulted dict). -/
def Job.tabataRest (d : PyDict) : Except JobErr Job :=
  if !hasKey d "EXERCISES" then .error .missingExercises
  else
    match pyGet d "EXERCISES" with
    | .list exs =>
      if exs.isEmpty then .error .exercisesEmpty
      else Except.bind (Job.tabataExLoop 0 exs) fun _ => Job.from_dict (.dict d)
    | _ => .error .exercisesNotList

/-- `Job.from_dict_tabata` (legacy factory): when `Rounds` is absent the
default 8 is written into a *copy* (`data = dict(data)`) of the input. -/
def Job.from_dict_tabata (data : Val) : Except JobErr Job :=
  match data with
  | .dict d =>
    match pyStrVal (pyGet d "MODE") with
    | none => .error .missingMode
    | some modeRaw =>
      if pyUpper (pyStrip modeRaw) ≠ "TABATA" then .error .tabataWrongMode
      else if !truthy (pyOr (pyGet d "NAME") (pyGet d "name")) then
        .error .missingName
      else
        match pyGet d "Rounds" with
        | .none => Job.tabataRest (dictSet d "Rounds" (.i 8))
        | v =>
          match pyIntVal v with
          | none => .error .roundsNotInt
          | some r =>
            if r ≤ 0 then .error .roundsNotPositive else Job.tabataRest d
  | _ => .error .notDict

-- ======================================================================
-- Stage (`Stage.from_dict`)
-- ======================================================================

/-- One constructor per `raise StageValidationError(...)` site. -/
inductive StageErr where
  | notDict
  | missingName
  | nameTooLong
  | descNotString
  | missingJobs
  | jobsNotList
  | jobsEmpty
  | jobNotObject (name : String) (idx : Nat)
  | jobMissingMode
  | unsupportedModeInJob (name modeStr : String) (idx : Nat)
  | emomSpecial
  | invalidJob (name : String) (idx : Nat) (inner : JobErr)
deriving DecidableEq, Repr

/-- The exact message of each `StageValidationError`. -/
def StageErr.message : StageErr → String
  | .notDict => "Stage data must be a dict"
  | .missingName => "missing required field 'NAME'"
  | .nameTooLong =>
    "field 'NAME' exceeds max length " ++ toString MAX_NAME_LEN ++ " characters"
  | .descNotString => "field 'description' must be a string"
  | .missingJobs => "missing required field 'JOBS'"
  | .jobsNotList => "field 'JOBS' must be a list"
  | .jobsEmpty => "field 'JOBS' must contain at least one item"
  | .jobNotObject n idx =>
    "Stage " ++ pyRepr n ++ ": invalid job at index " ++ toString idx ++
      ": must be an object"
  | .jobMissingMode => "missing required field 'MODE'"
  | .unsupportedModeInJob n m idx =>
    "Stage " ++ pyRepr n ++ ": unsupported MODE " ++ pyRepr m ++ " in job " ++
      toString idx
  | .emomSpecial => "unsupported MODE 'emom'"
  | .invalidJob n idx inner =>
    "Stage " ++ pyRepr n ++ ": invalid job at index " ++ toString idx ++ ": " ++
      inner.message

structure Stage where
  name : String
  description : Option String := none
  jobs : List Job := []

def Stage.parseName (d : PyDict) : Except StageErr String :=
  match pyStrVal (pyOr (pyGet d "NAME") (pyGet d "name")) with
  | some raw =>
    if pyStrip raw = "" then .error .missingName
    else if (pyStrip raw).length > MAX_NAME_LEN then .error .nameTooLong
    else .ok (pyStrip raw)
  | none => .error .missingName

def Stage.parseDescription (d : PyDict) : Except StageErr (Option String) :=
  match pyOr (pyGet d "Description") (pyGet d "description") with
  | .none => .ok none
  | v =>
    match pyStrVal v with
    | some sv => .ok (some (_truncate (pyStrip sv) MAX_DESC_LEN))
    | none => .error .descNotString

/-- `"JOBS" in data` / `"jobs" in data` membership-based fetch, then
None / list / non-empty checks. -/
def Stage.rawJobs (d : PyDict) : Except StageErr (List Val) :=
  match (if hasKey d "JOBS" then pyGet d "JOBS"
         else if hasKey d "jobs" then pyGet d "jobs" else .none) with
  | .none => .error .missingJobs
  | .list l => if l.isEmpty then .error .jobsEmpty else .ok l
  | _ => .error .jobsNotList

/-- The lowercase MODE names `Stage.from_dict` pre-checks against. -/
def allowedModesLower : List String :=
  ["custom_sets", "tabata", "emom", "amrap", "for_time", "edt"]

/-- One iteration of the job loop of `Stage.from_dict`: MODE pre-check,
then `Job.from_dict`; failures of a job whose MODE is exactly `"emom"` are
replaced by the special-cased `unsupported MODE 'emom'` error. -/
def Stage.parseJobOne (name : String) (idx : Nat) (jd : PyDict) :
    Except StageErr Job :=
  match pyGet jd "MODE" with
  | .none => .error .jobMissingMode
  | mv =>
    if !allowedModesLower.contains (pyLower (pyStrip (pyStr mv))) then
      .error (.unsupportedModeInJob name (pyStrip (pyStr mv)) idx)
    else
      match Job.from_dict (.dict jd) with
      | .ok j => .ok j
      | .error e =>
        if pyLower (pyStrip (pyStr mv)) == "emom" &&
            pyStrip (pyStr mv) == "emom" then
          .error .emomSpecial
        else .error (.invalidJob name idx e)

/-- The job loop of `Stage.from_dict` (dict check around `parseJobOne`). -/
def Stage.parseJobs (name : String) : Nat → List Val → Except StageErr (List Job)
  | _, [] => .ok []
  | idx, jv :: rest =>
    match jv with
    | .dict jd =>
      match Stage.parseJobOne name idx jd with
      | .ok j =>
        (Stage.parseJobs name (idx + 1) rest).map (fun tail => j :: tail)
      | .error e => .error e
    | _ => .error (.jobNotObject name idx)

/-- `Stage.from_dict`. -/
def Stage.from_dict (data : Val) : Except StageErr Stage :=
  match data with
  | .dict d =>
    Except.bind (Stage.parseName d) fun name =>
    Except.bind (Stage.parseDescription d) fun description =>
    Except.bind (Stage.rawJobs d) fun rawJobs =>
    Except.bind (Stage.parseJobs name 0 rawJobs) fun jobs =>
    .ok { name, description, jobs }
  | _ => .error .notDict

-- ======================================================================
-- Workout (`Workout.from_dict`)
-- ======================================================================

/-- One constructor per `raise WorkoutTopLevelValidationError(...)` site. -/
inductive WorkoutErr where
  | notDict
  | missingName
  | nameTooLong
  | descNotString
  | missingStages
  | stagesNotList
  | stagesEmpty
  | invalidStage (idx : Nat) (inner : StageErr)
deriving DecidableEq, Repr

/-- The exact message of each `WorkoutTopLevelValidationError`. -/
def WorkoutErr.message : WorkoutErr → String
  | .notDict => "Workout top-level data must be a dict"
  | .missingName => "missing required field 'NAME'"
  | .nameTooLong =>
    "field 'NAME' exceeds max length " ++ toString MAX_NAME_LEN ++ " characters"
  | .descNotString => "field 'description' must be a string"
  | .missingStages => "missing required field 'STAGES'"
  | .stagesNotList => "field 'STAGES' must be a list"
  | .stagesEmpty => "field 'STAGES' must contain at least one item"
  | .invalidStage idx inner =>
    "invalid stage at index " ++ toString idx ++ ": " ++ inner.message

structure Workout where
  name : String
  description : Option String := none
  stages : List Stage := []

def Workout.parseName (d : PyDict) : Except WorkoutErr String :=
  match pyStrVal (pyOr (pyGet d "NAME") (pyGet d "name")) with
  | some raw =>
    if pyStrip raw = "" then .error .missingName
    else if (pyStrip raw).length > MAX_NAME_LEN then .error .nameTooLong
    else .ok (pyStrip raw)
  | none => .error .missingName

def Workout.parseDescription (d : PyDict) : Except WorkoutErr (Option String) :=
  match pyOr (pyGet d "Description") (pyGet d "description") with
  | .none => .ok none
  | v =>
    match pyStrVal v with
    | some sv => .ok (some (_truncate (pyStrip sv) MAX_DESC_LEN))
    | none => .error .descNotString

def Workout.rawStages (d : PyDict) : Except WorkoutErr (List Val) :=
  match (if hasKey d "STAGES" then pyGet d "STAGES"
         else if hasKey d "stages" then pyGet d "stages" else .none) with
  | .none => .error .missingStages
  | .list l => if l.isEmpty then .error .stagesEmpty else .ok l
  | _ => .error .stagesNotList

/-- The stage loop of `Workout.from_dict`: each child through
`Stage.from_dict`, failures wrapped with the index only. -/
def Workout.parseStages : Nat → List Val → Except WorkoutErr (List Stage)
  | _, [] => .ok []
  | idx, sv :: rest =>
    match Stage.from_dict sv with
    | .ok st =>
      (Workout.parseStages (idx + 1) rest).map (fun tail => st :: tail)
    | .error e => .error (.invalidStage idx e)

/-- `Workout.from_dict`. -/
def Workout.from_dict (data : Val) : Except WorkoutErr Workout :=
  match data with
  | .dict d =>
    Except.bind (Workout.parseName d) fun name =>
    Except.bind (Workout.parseDescription d) fun description =>
    Except.bind (Workout.rawStages d) fun rawStages =>
    Except.bind (Workout.parseStages 0 rawStages) fun stages =>
    .ok { name, description, stages }
  | _ => .error .notDict

-- ======================================================================
-- v2 pipeline: `_MODE_SYNONYMS_V2` / `_validate_and_normalize_modes_v2`
-- (`src/application/workout_loader.py`)
-- ======================================================================

/-- `_MODE_SYNONYMS_V2`, in source order. -/
def MODE_SYNONYMS_V2 : List (String × String) :=
  [("CUSTOM", "custom_sets"), ("CUSTOM_SETS", "custom_sets"),
   ("custom_sets", "custom_sets"), ("custom", "custom_sets"),
   ("TABATA", "TABATA"), ("tabata", "TABATA"),
   ("EMOM", "EMOM"), ("emom", "EMOM"),
   ("AMRAP", "AMRAP"), ("amrap", "AMRAP"),
   ("FOR_TIME", "FOR_TIME"), ("for_time", "FOR_TIME"),
   ("EDT", "EDT"), ("edt", "EDT")]

def synLookup (k : String) : List (String × String) → Option String
  | [] => none
  | (k', v) :: rest => if k' = k then some v else synLookup k rest

/-- `_SUPPORTED_MODES_V2` (the key set of the synonym table). -/
def synKeys : List String := MODE_SYNONYMS_V2.map Prod.fst

/-- The membership test plus canonical lookup of
`_validate_and_normalize_modes_v2` for one (already stripped) MODE key:
`none` means unsupported, `some c` is the value written back into the node. -/
def resolveModeV2 (modeKey : String) : Option String :=
  if !synKeys.contains modeKey && !synKeys.contains (pyUpper modeKey) then none
  else
    match synLookup modeKey MODE_SYNONYMS_V2 with
    | some c => some c
    | none =>
      match synLookup (pyUpper modeKey) MODE_SYNONYMS_V2 with
      | some c => some c
      | none => some modeKey

/-- One job node of `_validate_and_normalize_modes_v2`; the result dict is
the job node after the in-place `job["MODE"] = canon` write. -/
def normalizeJobV2 (job : PyDict) : Except String PyDict :=
  let nameRepr :=
    pyReprVal (pyOr (pyOr (pyGet job "NAME") (pyGet job "name")) (.s "?"))
  match pyStrVal (pyGet job "MODE") with
  | none => .error ("Job " ++ nameRepr ++ " is missing MODE or it is not a string")
  | some sv =>
    if pyStrip sv = "" then
      .error ("Job " ++ nameRepr ++ " is missing MODE or it is not a string")
    else
      match resolveModeV2 (pyStrip sv) with
      | none => .error ("Unsupported MODE " ++ pyRepr sv ++ " in job " ++ nameRepr)
      | some canon => .ok (dictSet job "MODE" (.s canon))

def normalizeJobsV2 : List Val → Except String (List Val)
  | [] => .ok []
  | .dict jd :: rest =>
    Except.bind (normalizeJobV2 jd) fun jd' =>
    (normalizeJobsV2 rest).map (fun tail => Val.dict jd' :: tail)
  | v :: rest => (normalizeJobsV2 rest).map (fun tail => v :: tail)

/-- One stage node: `stage.get("JOBS") or stage.get("jobs") or []`; non-list
job collections are skipped; the updated job list is written back to the key
it was read from. -/
def normalizeStageV2 (st : Val) : Except String Val :=
  match st with
  | .dict sd =>
    match pyOr (pyOr (pyGet sd "JOBS") (pyGet sd "jobs")) (.list []) with
    | .list js =>
      Except.bind (normalizeJobsV2 js) fun js' =>
      .ok (.dict
        (if truthy (pyGet sd "JOBS") then dictSet sd "JOBS" (.list js')
         else if truthy (pyGet sd "jobs") then dictSet sd "jobs" (.list js')
         else sd))
    | _ => .ok st
  | _ => .ok st

def normalizeStagesV2 : List Val → Except String (List Val)
  | [] => .ok []
  | st :: rest =>
    match st with
    | .dict _ =>
      Except.bind (normalizeStageV2 st) fun st' =>
      (normalizeStagesV2 rest).map (fun tail => st' :: tail)
    | _ => (normalizeStagesV2 rest).map (fun tail => st :: tail)

/-- `_validate_and_normalize_modes_v2`, with the in-place mutation made
explicit: the returned tree is the caller's tree after the call. -/
def validate_and_normalize_modes_v2 (w : Val) : Except String Val :=
  match w with
  | .dict wd =>
    match pyOr (pyOr (pyGet wd "STAGES") (pyGet wd "stages")) (.list []) with
    | .list sts =>
      Except.bind (normalizeStagesV2 sts) fun sts' =>
      .ok (.dict
        (if truthy (pyGet wd "STAGES") then dictSet wd "STAGES" (.list sts')
         else if truthy (pyGet wd "stages") then dictSet wd "stages" (.list sts')
         else wd))
    | _ => .ok w
  | _ => .ok w

-- ======================================================================
-- Generic `Except` lemmas and phase inversions
-- ======================================================================

deriving instance DecidableEq for Except

theorem exbind_ok {ε α β} {x : Except ε α} {f : α → Except ε β} {b : β} :
    Except.bind x f = .ok b ↔ ∃ a, x = .ok a ∧ f a = .ok b := by
  cases x <;> simp [Except.bind]

theorem exbind_error {ε α β} {x : Except ε α} {f : α → Except ε β} {e : ε} :
    Except.bind x f = .error e ↔
      x = .error e ∨ ∃ a, x = .ok a ∧ f a = .error e := by
  cases x <;> simp [Except.bind]

theorem exmap_ok {ε α β} {x : Except ε α} {f : α → β} {b : β} :
    x.map f = .ok b ↔ ∃ a, x = .ok a ∧ f a = b := by
  cases x <;> simp [Except.map]

theorem exmap_error {ε α β} {x : Except ε α} {f : α → β} {e : ε} :
    x.map f = .error e ↔ x = .error e := by
  cases x <;> simp [Except.map]

/-- Inversion of a successful `Job.from_dict` run into its phases. -/
theorem from_dict_ok_iff {d : PyDict} {j : Job} :
    Job.from_dict (.dict d) = .ok j ↔
      ∃ c exs extra,
        Job.parseCommon d = .ok c ∧
        (coerceFlag (eccRawOf d) && coerceFlag (isoRawOf d)) = false ∧
        Job.parseExercises d = .ok exs ∧
        Job.checkModeRules c.mode exs = .ok () ∧
        collectExtra JobErr.extraKeyTooLong jobCoreKeys d = .ok extra ∧
        j = { name := c.name, mode := c.mode, description := c.description,
              rounds := c.rounds, work_time_in_seconds := c.wts,
              work_time_in_minutes := c.wtm, rest_time_in_seconds := c.rti,
              rest_between_exercises_in_seconds := c.rbe,
              rest_between_rounds_in_seconds := c.rbr, cadence := c.cadence,
              eccentric_neg := coerceFlag (eccRawOf d),
              isometric_hold := coerceFlag (isoRawOf d),
              exercises := exs, extra := extra } := by
  constructor
  · intro h
    simp only [Job.from_dict] at h
    rw [exbind_ok] at h
    obtain ⟨c, hc, h⟩ := h
    by_cases hf : (coerceFlag (eccRawOf d) && coerceFlag (isoRawOf d)) = true
    · simp [hf] at h
    · simp only [Bool.not_eq_true] at hf
      simp only [hf, if_false, Bool.false_eq_true] at h
      rw [exbind_ok] at h
      obtain ⟨exs, hexs, h⟩ := h
      rw [exbind_ok] at h
      obtain ⟨u, hu, h⟩ := h
      rw [exbind_ok] at h
      obtain ⟨extra, hextra, h⟩ := h
      cases u
      exact ⟨c, exs, extra, hc, hf, hexs, hu, hextra,
        ((Except.ok.injEq _ _).mp h).symm⟩
  · rintro ⟨c, exs, extra, hc, hf, hexs, hrules, hextra, rfl⟩
    simp [Job.from_dict, hc, hf, hexs, hrules, hextra, Except.bind]

theorem flags_of_from_dict_ok {d : PyDict} {j : Job}
    (h : Job.from_dict (.dict d) = .ok j) :
    j.eccentric_neg = coerceFlag (eccRawOf d) ∧
    j.isometric_hold = coerceFlag (isoRawOf d) := by
  rw [from_dict_ok_iff] at h
  obtain ⟨c, exs, extra, _, _, _, _, _, rfl⟩ := h
  exact ⟨rfl, rfl⟩

/-- Inversion of a successful `Job.parseCommon` run. -/
theorem parseCommon_ok_iff {d : PyDict} {c : JobCommon} :
    Job.parseCommon d = .ok c ↔
      ∃ name mode description rounds wts wtm rti rbe rbr cadence,
        Job.parseName d = .ok name ∧
        Job.parseMode d = .ok mode ∧
        Job.parseDescription d = .ok description ∧
        Job.parseRounds d mode = .ok rounds ∧
        parseOptIntVal (pyGet d "work_time_in_seconds") JobErr.wtsNotInt
          = .ok wts ∧
        Job.parseWtm d mode = .ok wtm ∧
        parseOptIntVal (pyGet d "rest_time_in_seconds") JobErr.rtiNotInt
          = .ok rti ∧
        parseOptIntVal
          (pyOr (pyGet d "Rest_between_exercises_in_seconds")
            (pyGet d "rest_between_exercises_in_seconds")) JobErr.rbeNotInt
          = .ok rbe ∧
        parseOptIntVal
          (pyOr (pyGet d "Rest_between_rounds_in_seconds")
            (pyGet d "rest_between_rounds_in_seconds")) JobErr.rbrNotInt
          = .ok rbr ∧
        Job.parseCadence d = .ok cadence ∧
        c = { name, mode, description, rounds, wts, wtm, rti, rbe, rbr,
              cadence } := by
  constructor
  · intro h
    unfold Job.parseCommon at h
    rw [exbind_ok] at h; obtain ⟨name, h1, h⟩ := h
    rw [exbind_ok] at h; obtain ⟨mode, h2, h⟩ := h
    rw [exbind_ok] at h; obtain ⟨description, h3, h⟩ := h
    rw [exbind_ok] at h; obtain ⟨rounds, h4, h⟩ := h
    rw [exbind_ok] at h; obtain ⟨wts, h5, h⟩ := h
    rw [exbind_ok] at h; obtain ⟨wtm, h6, h⟩ := h
    rw [exbind_ok] at h; obtain ⟨rti, h7, h⟩ := h
    rw [exbind_ok] at h; obtain ⟨rbe, h8, h⟩ := h
    rw [exbind_ok] at h; obtain ⟨rbr, h9, h⟩ := h
    rw [exbind_ok] at h; obtain ⟨cadence, h10, h⟩ := h
    exact ⟨name, mode, description, rounds, wts, wtm, rti, rbe, rbr, cadence,
      h1, h2, h3, h4, h5, h6, h7, h8, h9, h10,
      ((Except.ok.injEq _ _).mp h).symm⟩
  · rintro ⟨name, mode, description, rounds, wts, wtm, rti, rbe, rbr, cadence,
      h1, h2, h3, h4, h5, h6, h7, h8, h9, h10, rfl⟩
    simp [Job.parseCommon, h1, h2, h3, h4, h5, h6, h7, h8, h9, h10,
      Except.bind]

-- Error characterizations of the `parseCommon` sub-parsers.

theorem parseName_error {d : PyDict} {e : JobErr}
    (h : Job.parseName d = .error e) :
    e = .missingName ∨ e = .nameTooLong := by
  unfold Job.parseName at h
  split at h
  · split at h
    · simp_all
    · split at h <;> simp_all
  · simp_all

theorem from_str_error {raw : Val} {e : JobErr}
    (h : JobMode.from_str raw = .error e) :
    e = .modeNotString ∨ ∃ sv, e = .unsupportedMode sv := by
  unfold JobMode.from_str at h
  split at h
  · simp_all
  · split at h
    · simp_all
    · split at h
      · simp_all
      · split at h
        · simp_all
        · split at h
          · simp_all
          · split at h
            · simp_all
            · split at h
              · simp_all
              · rw [Except.error.injEq] at h
                exact Or.inr ⟨_, h.symm⟩

theorem parseMode_error {d : PyDict} {e : JobErr}
    (h : Job.parseMode d = .error e) :
    e = .missingMode ∨ e = .modeNotString ∨ ∃ sv, e = .unsupportedMode sv := by
  unfold Job.parseMode at h
  split at h
  · simp_all
  · rcases from_str_error h with h' | h' <;> simp_all

theorem parseDescription_error {d : PyDict} {e : JobErr}
    (h : Job.parseDescription d = .error e) : e = .descNotString := by
  unfold Job.parseDescription at h
  split at h
  · simp_all
  · split at h <;> simp_all

theorem parseRounds_error {d : PyDict} {mode : JobMode} {e : JobErr}
    (h : Job.parseRounds d mode = .error e) :
    e = .roundsNotInt ∨ e = .roundsNotPositive := by
  unfold Job.parseRounds at h
  rw [exbind_error] at h
  rcases h with h | ⟨r, _, h⟩
  · split at h
    · simp_all
    · split at h
      · split at h <;> simp_all
      · simp_all
  · simp at h

theorem parseOptIntVal_error {ε} {v : Val} {err e : ε}
    (h : parseOptIntVal v err = .error e) : e = err := by
  unfold parseOptIntVal at h
  split at h
  · simp_all
  · split at h <;> simp_all

theorem parseWtm_error {d : PyDict} {mode : JobMode} {e : JobErr}
    (h : Job.parseWtm d mode = .error e) :
    e = .wtmNotInt ∨ e = .wtmNotPositive ∨ e = .edtRequiresWtm := by
  unfold Job.parseWtm at h
  rw [exbind_error] at h
  rcases h with h | ⟨w, _, h⟩
  · split at h
    · simp_all
    · split at h
      · split at h <;> simp_all
      · simp_all
  · split at h <;> simp_all

theorem parseCadence_error {d : PyDict} {e : JobErr}
    (h : Job.parseCadence d = .error e) : e = .cadenceTooLong := by
  unfold Job.parseCadence at h
  split at h
  · split at h <;> simp_all
  · simp_all

/-- `parseCommon` never raises the mutual-exclusivity error (the flag check
comes after all its fields in the source). -/
theorem parseCommon_ne_mutual {d : PyDict} :
    Job.parseCommon d ≠ .error .mutuallyExclusiveFlags := by
  intro h
  unfold Job.parseCommon at h
  rw [exbind_error] at h
  rcases h with h | ⟨name, _, h⟩
  · rcases parseName_error h with h' | h' <;> simp at h'
  rw [exbind_error] at h
  rcases h with h | ⟨mode, _, h⟩
  · rcases parseMode_error h with h' | h' | ⟨sv, h'⟩ <;> simp at h'
  rw [exbind_error] at h
  rcases h with h | ⟨description, _, h⟩
  · have h' := parseDescription_error h; simp at h'
  rw [exbind_error] at h
  rcases h with h | ⟨rounds, _, h⟩
  · rcases parseRounds_error h with h' | h' <;> simp at h'
  rw [exbind_error] at h
  rcases h with h | ⟨wts, _, h⟩
  · have h' := parseOptIntVal_error h; simp at h'
  rw [exbind_error] at h
  rcases h with h | ⟨wtm, _, h⟩
  · rcases parseWtm_error h with h' | h' | h' <;> simp at h'
  rw [exbind_error] at h
  rcases h with h | ⟨rti, _, h⟩
  · have h' := parseOptIntVal_error h; simp at h'
  rw [exbind_error] at h
  rcases h with h | ⟨rbe, _, h⟩
  · have h' := parseOptIntVal_error h; simp at h'
  rw [exbind_error] at h
  rcases h with h | ⟨rbr, _, h⟩
  · have h' := parseOptIntVal_error h; simp at h'
  rw [exbind_error] at h
  rcases h with h | ⟨cadence, _, h⟩
  · have h' := parseCadence_error h; simp at h'
  · simp at h

-- ======================================================================
-- Exercise-phase and mode-rule error characterizations
-- ======================================================================

theorem collectExtra_error {ε} {mkErr : String → ε} {core : List String}
    {l : PyDict} {e : ε} (h : collectExtra mkErr core l = .error e) :
    ∃ k, e = mkErr k := by
  induction l with
  | nil => simp [collectExtra] at h
  | cons kv rest ih =>
    unfold collectExtra at h
    split at h
    · exact ih h
    · split at h
      · exact ⟨kv.1, by simp_all⟩
      · simp only [exmap_error] at h
        exact ih h

theorem parseExList_error {l : List Val} {e : JobErr} :
    ∀ {idx}, Job.parseExList idx l = .error e →
      (∃ i, e = .exerciseNotObject i) ∨ ∃ i ex, e = .invalidExercise i ex := by
  induction l with
  | nil => intro idx h; simp [Job.parseExList] at h
  | cons v rest ih =>
    intro idx h
    unfold Job.parseExList at h
    split at h
    · split at h
      · simp only [exmap_error] at h
        exact ih h
      · rw [Except.error.injEq] at h
        exact Or.inr ⟨idx, _, h.symm⟩
    · rw [Except.error.injEq] at h
      exact Or.inl ⟨idx, h.symm⟩

theorem parseExercises_error {d : PyDict} {e : JobErr}
    (h : Job.parseExercises d = .error e) :
    e = .exercisesNotList ∨ (∃ i, e = .exerciseNotObject i) ∨
      ∃ i ex, e = .invalidExercise i ex := by
  unfold Job.parseExercises at h
  split at h
  · simp at h
  · exact Or.inr (parseExList_error h)
  · simp_all

theorem forTimeLoop_error {exs : List Exercise} {e : JobErr} :
    ∀ {i}, Job.forTimeLoop i exs = .error e → ∃ k, e = .forTimeRepsMissing k := by
  induction exs with
  | nil => intro i h; simp [Job.forTimeLoop] at h
  | cons x rest ih =>
    intro i h
    unfold Job.forTimeLoop at h
    split at h
    · rw [Except.error.injEq] at h
      exact ⟨i, h.symm⟩
    · exact ih h

theorem edtLoop_error {exs : List Exercise} {e : JobErr} :
    ∀ {i}, Job.edtLoop i exs = .error e → ∃ k, e = .edtWtsForbidden k := by
  induction exs with
  | nil => intro i h; simp [Job.edtLoop] at h
  | cons x rest ih =>
    intro i h
    unfold Job.edtLoop at h
    split at h
    · rw [Except.error.injEq] at h
      exact ⟨i, h.symm⟩
    · exact ih h

theorem checkModeRules_error {mode : JobMode} {exs : List Exercise} {e : JobErr}
    (h : Job.checkModeRules mode exs = .error e) :
    e = .forTimeNeedsExercises ∨ (∃ i, e = .forTimeRepsMissing i) ∨
      e = .edtNeedsExercises ∨ ∃ i, e = .edtWtsForbidden i := by
  unfold Job.checkModeRules at h
  rw [exbind_error] at h
  rcases h with h | ⟨u, _, h⟩
  · split at h
    · split at h
      · simp_all
      · exact Or.inr (Or.inl (forTimeLoop_error h))
    · simp at h
  · split at h
    · split at h
      · simp_all
      · exact Or.inr (Or.inr (Or.inr (edtLoop_error h)))
    · simp at h

-- ======================================================================
-- C10: the or-chained flag lookup prefers a later truthy synonym key
-- ======================================================================

/-- C10: in the generic `Job.from_dict` the boolean-flag lookup is the
truthiness-based `or`-chain `data.get("Eccentric (NEG)") or
data.get("eccentric_neg")`, so a falsy `False` stored under the canonical
key is ignored in favour of a later synonym key: whenever
`'Eccentric (NEG)'` holds `False` and `'eccentric_neg'` holds `True`, the
resolved flag value is `True` and any successfully built job has
`eccentric_neg = true`. -/
theorem c10_flag_or_chain (d : PyDict)
    (h1 : pyGet d "Eccentric (NEG)" = .b false)
    (h2 : pyGet d "eccentric_neg" = .b true) :
    eccRawOf d = .b true ∧
    ∀ j, Job.from_dict (.dict d) = .ok j → j.eccentric_neg = true := by
  have he : eccRawOf d = .b true := by
    simp [eccRawOf, h1, h2, pyOr, truthy]
  refine ⟨he, fun j hj => ?_⟩
  rw [(flags_of_from_dict_ok hj).1, he]
  rfl

def c10Node : PyDict :=
  [("NAME", .s "J"), ("MODE", .s "AMRAP"),
   ("Eccentric (NEG)", .b false), ("eccentric_neg", .b true)]

theorem c10_flag_or_chain_witness :
    pyGet c10Node "Eccentric (NEG)" = .b false ∧
    pyGet c10Node "eccentric_neg" = .b true ∧
    (Job.from_dict (.dict c10Node)).map Job.eccentric_neg = .ok true := by
  have hok : (Job.from_dict (.dict c10Node)).map (fun _ => ()) = .ok () := by
    decide
  refine ⟨rfl, rfl, ?_⟩
  cases hj : Job.from_dict (.dict c10Node) with
  | error e => rw [hj] at hok; simp [Except.map] at hok
  | ok j =>
    have := (c10_flag_or_chain c10Node rfl rfl).2 j hj
    simp [Except.map, this]

-- ======================================================================
-- C6: mutual exclusivity of the two flags (corrected)
-- ======================================================================

def c6Node : PyDict := [("eccentric_neg", .b true), ("isometric_hold", .b true)]

/-- C6 counterexample: a node on which both flags coerce to true but whose
validation fails with the missing-NAME error, not with the
mutually-exclusive-flags error, refuting the claimed "if and only if" over
all job nodes. -/
theorem c6_counterexample :
    coerceFlag (eccRawOf c6Node) = true ∧
    coerceFlag (isoRawOf c6Node) = true ∧
    Job.from_dict (.dict c6Node) = .error .missingName ∧
    JobErr.missingName ≠ JobErr.mutuallyExclusiveFlags := by
  exact ⟨by decide, by decide, by rfl, by decide⟩

/-- C6 (amended): validation fails with the mutually-exclusive-flags error
iff both flags coerce to true *and* every field checked before the flag
check parses successfully; and flag coercion is total, returning true
exactly for native `True` or a string whose stripped lowercase form is in
`{"true","yes","1"}`. -/
theorem c6_mutually_exclusive_flags :
    (∀ d : PyDict,
      Job.from_dict (.dict d) = .error .mutuallyExclusiveFlags ↔
        ((∃ c, Job.parseCommon d = .ok c) ∧
          (coerceFlag (eccRawOf d) && coerceFlag (isoRawOf d)) = true)) ∧
    ∀ v : Val, coerceFlag v = true ↔
      (v = .b true ∨ ∃ sv, v = .s sv ∧
        (pyLower (pyStrip sv) = "true" ∨ pyLower (pyStrip sv) = "yes" ∨
          pyLower (pyStrip sv) = "1")) := by
  constructor
  · intro d
    constructor
    · intro h
      simp only [Job.from_dict] at h
      rw [exbind_error] at h
      rcases h with h | ⟨c, hc, h⟩
      · exact absurd h parseCommon_ne_mutual
      · refine ⟨⟨c, hc⟩, ?_⟩
        by_cases hf : (coerceFlag (eccRawOf d) && coerceFlag (isoRawOf d)) = true
        · exact hf
        · exfalso
          simp only [Bool.not_eq_true] at hf
          simp only [hf, if_false, Bool.false_eq_true] at h
          rw [exbind_error] at h
          rcases h with h | ⟨exs, _, h⟩
          · rcases parseExercises_error h with h' | ⟨i, h'⟩ | ⟨i, ex, h'⟩ <;>
              simp at h'
          rw [exbind_error] at h
          rcases h with h | ⟨u, _, h⟩
          · rcases checkModeRules_error h with h' | ⟨i, h'⟩ | h' | ⟨i, h'⟩ <;>
              simp at h'
          rw [exbind_error] at h
          rcases h with h | ⟨extra, _, h⟩
          · obtain ⟨k, h'⟩ := collectExtra_error h
            simp at h'
          · simp at h
    · rintro ⟨⟨c, hc⟩, hf⟩
      simp [Job.from_dict, hc, hf, Except.bind]
  · intro v
    cases v <;> simp [coerceFlag, or_assoc]

-- ======================================================================
-- C3: EDT mode rules (confirmed)
-- ======================================================================

theorem parseRounds_edt {d : PyDict} {r : Option Int}
    (h : Job.parseRounds d .EDT = .ok r) : r = none := by
  unfold Job.parseRounds at h
  rw [exbind_ok] at h
  obtain ⟨r0, _, h⟩ := h
  simp at h
  exact h.symm

theorem parseWtm_edt {d : PyDict} {w : Option Int}
    (h : Job.parseWtm d .EDT = .ok w) :
    pyGet d "work_time_in_minutes" ≠ Val.none := by
  intro hn
  unfold Job.parseWtm at h
  rw [exbind_ok] at h
  obtain ⟨w0, h0, h⟩ := h
  rw [hn] at h0
  simp at h0
  subst h0
  simp at h

theorem edtLoop_all_none {exs : List Exercise} :
    ∀ {i}, Job.edtLoop i exs = .ok () →
      ∀ e ∈ exs, e.work_time_in_seconds = none := by
  induction exs with
  | nil => intro i _ e he; simp at he
  | cons x rest ih =>
    intro i h e he
    unfold Job.edtLoop at h
    split at h
    next hw => simp at h
    next hw =>
      rcases List.mem_cons.mp he with rfl | hm
      · cases hx : e.work_time_in_seconds with
        | none => rfl
        | some n => rw [hx] at hw; simp at hw
      · exact ih h e hm

theorem checkModeRules_edt {exs : List Exercise} {u : Unit}
    (h : Job.checkModeRules .EDT exs = .ok u) :
    ∀ e ∈ exs, e.work_time_in_seconds = none := by
  unfold Job.checkModeRules at h
  rw [exbind_ok] at h
  obtain ⟨u1, _, h⟩ := h
  simp only [show (JobMode.EDT = JobMode.EDT) = True by simp, if_true] at h
  split at h
  · simp at h
  · cases u
    exact edtLoop_all_none h

def edtScenarioNode : Val :=
  .dict [("NAME", .s "E1"), ("MODE", .s "EDT"),
         ("work_time_in_minutes", .i 20),
         ("EXERCISES", .list [.dict [("NAME", .s "Snatch"),
                                     ("work_time_in_seconds", .i 30)]])]

/-- C3: for every job node resolving to EDT, a successful validation
implies `work_time_in_minutes` was present, no exercise declares
`work_time_in_seconds`, and the built rounds is always suppressed to
`None`; the spec's EDT scenario fails naming exercise index 0 with the
exact source message. -/
theorem c3_edt_rules :
    (∀ (d : PyDict) (j : Job),
        Job.from_dict (.dict d) = .ok j → j.mode = .EDT →
          pyGet d "work_time_in_minutes" ≠ Val.none ∧
          (∀ e ∈ j.exercises, e.work_time_in_seconds = none) ∧
          j.rounds = none) ∧
    Job.from_dict edtScenarioNode = .error (.edtWtsForbidden 0) ∧
    (JobErr.edtWtsForbidden 0).message =
      "EDT job exercise at index 0 must not define 'work_time_in_seconds'" := by
  refine ⟨?_, by rfl, by decide⟩
  intro d j hok hmode
  rw [from_dict_ok_iff] at hok
  obtain ⟨c, exs, extra, hc, hf, hexs, hrules, hextra, rfl⟩ := hok
  simp only at hmode
  rw [parseCommon_ok_iff] at hc
  obtain ⟨name, mode, description, rounds, wts, wtm, rti, rbe, rbr, cadence,
    h1, h2, h3, h4, h5, h6, h7, h8, h9, h10, rfl⟩ := hc
  simp only at hmode hrules
  subst hmode
  exact ⟨parseWtm_edt h6, checkModeRules_edt hrules, parseRounds_edt h4⟩

def edtOkNode : PyDict :=
  [("NAME", .s "E"), ("MODE", .s "EDT"), ("Rounds", .i 3),
   ("work_time_in_minutes", .i 20),
   ("EXERCISES", .list [.dict [("NAME", .s "S"), ("reps", .i 5)]])]

theorem c3_edt_rules_witness :
    pyGet edtOkNode "work_time_in_minutes" ≠ Val.none ∧
    (Job.from_dict (.dict edtOkNode)).map Job.rounds = .ok none := by
  have hmode : (Job.from_dict (.dict edtOkNode)).map Job.mode = .ok .EDT := by
    decide
  cases hj : Job.from_dict (.dict edtOkNode) with
  | error e => rw [hj] at hmode; simp [Except.map] at hmode
  | ok j =>
    rw [hj] at hmode
    simp [Except.map] at hmode
    have h := c3_edt_rules.1 edtOkNode j hj hmode
    exact ⟨h.1, by simp [Except.map, h.2.2]⟩

-- ======================================================================
-- C4: EMOM / AMRAP rules are not enforced by `Job.from_dict` (corrected)
-- ======================================================================

theorem parseOptIntVal_none_ok {ε} {err : ε} {w : Option Int}
    (h : parseOptIntVal Val.none err = .ok w) : w = none := by
  simp [parseOptIntVal] at h
  exact h.symm

theorem parseWtm_amrap_none {d : PyDict} {w : Option Int}
    (hn : pyGet d "work_time_in_minutes" = Val.none)
    (h : Job.parseWtm d .AMRAP = .ok w) : w = none := by
  unfold Job.parseWtm at h
  rw [exbind_ok] at h
  obtain ⟨w0, h0, h⟩ := h
  rw [hn] at h0
  simp at h0
  subst h0
  simp at h
  exact h.symm

def emomMinNode : PyDict := [("NAME", .s "x"), ("MODE", .s "EMOM")]
def amrapMinNode : PyDict := [("NAME", .s "x"), ("MODE", .s "AMRAP")]

/-- C4 counterexample: an EMOM node without `rounds` and without
`work_time_in_seconds` validates successfully with rounds `None` and work
time `None` (no 60-second default), and an AMRAP node without
`work_time_in_minutes` validates successfully — refuting both the claimed
EMOM requirements/default and the claimed AMRAP requirement. -/
theorem c4_counterexample :
    (Job.from_dict (.dict emomMinNode)).map
        (fun j => (j.mode, j.rounds, j.work_time_in_seconds)) =
      .ok (.EMOM, none, none) ∧
    (Job.from_dict (.dict amrapMinNode)).map
        (fun j => (j.mode, j.work_time_in_minutes)) = .ok (.AMRAP, none) := by
  exact ⟨by decide, by decide⟩

/-- C4 (amended): the generic `Job.from_dict` enforces no EMOM- or
AMRAP-specific requirement or default: a successfully validated EMOM job
whose node lacks `work_time_in_seconds` keeps it `None` (no 60 default),
and a successfully validated AMRAP job whose node lacks
`work_time_in_minutes` keeps it `None` (the field is not required). -/
theorem c4_emom_amrap_lenient :
    (∀ (d : PyDict) (j : Job),
        Job.from_dict (.dict d) = .ok j → j.mode = .EMOM →
          pyGet d "work_time_in_seconds" = Val.none →
          j.work_time_in_seconds = none) ∧
    (∀ (d : PyDict) (j : Job),
        Job.from_dict (.dict d) = .ok j → j.mode = .AMRAP →
          pyGet d "work_time_in_minutes" = Val.none →
          j.work_time_in_minutes = none) := by
  constructor
  · intro d j hok _ hn
    rw [from_dict_ok_iff] at hok
    obtain ⟨c, exs, extra, hc, hf, hexs, hrules, hextra, rfl⟩ := hok
    rw [parseCommon_ok_iff] at hc
    obtain ⟨name, mode, description, rounds, wts, wtm, rti, rbe, rbr, cadence,
      h1, h2, h3, h4, h5, h6, h7, h8, h9, h10, rfl⟩ := hc
    simp only
    rw [hn] at h5
    exact parseOptIntVal_none_ok h5
  · intro d j hok hmode hn
    rw [from_dict_ok_iff] at hok
    obtain ⟨c, exs, extra, hc, hf, hexs, hrules, hextra, rfl⟩ := hok
    simp only at hmode
    rw [parseCommon_ok_iff] at hc
    obtain ⟨name, mode, description, rounds, wts, wtm, rti, rbe, rbr, cadence,
      h1, h2, h3, h4, h5, h6, h7, h8, h9, h10, rfl⟩ := hc
    simp only at hmode
    subst hmode
    simp only
    exact parseWtm_amrap_none hn h6

theorem c4_emom_amrap_lenient_witness :
    (Job.from_dict (.dict emomMinNode)).map Job.work_time_in_seconds
      = .ok none ∧
    (Job.from_dict (.dict amrapMinNode)).map Job.work_time_in_minutes
      = .ok none := by
  have hm1 : (Job.from_dict (.dict emomMinNode)).map Job.mode = .ok .EMOM := by
    decide
  have hm2 : (Job.from_dict (.dict amrapMinNode)).map Job.mode
      = .ok .AMRAP := by decide
  constructor
  · cases hj : Job.from_dict (.dict emomMinNode) with
    | error e => rw [hj] at hm1; simp [Except.map] at hm1
    | ok j =>
      rw [hj] at hm1
      simp [Except.map] at hm1
      have := c4_emom_amrap_lenient.1 emomMinNode j hj hm1 rfl
      simp [Except.map, this]
  · cases hj : Job.from_dict (.dict amrapMinNode) with
    | error e => rw [hj] at hm2; simp [Except.map] at hm2
    | ok j =>
      rw [hj] at hm2
      simp [Except.map] at hm2
      have := c4_emom_amrap_lenient.2 amrapMinNode j hj hm2 rfl
      simp [Except.map, this]

-- ======================================================================
-- C1: custom_sets Rounds handling (corrected)
-- ======================================================================

theorem parseExList_ok_of_all {exs : List Val} :
    ∀ idx,
      (∀ e ∈ exs, (∃ ed, e = Val.dict ed) ∧ (Exercise.from_dict e).isOk = true) →
      ∃ l, Job.parseExList idx exs = .ok l := by
  induction exs with
  | nil => exact fun _ _ => ⟨[], rfl⟩
  | cons x rest ih =>
    intro idx hall
    obtain ⟨⟨ed, rfl⟩, hx⟩ := hall x (by simp)
    obtain ⟨ex, hex⟩ : ∃ ex, Exercise.from_dict (.dict ed) = .ok ex := by
      cases hfd : Exercise.from_dict (.dict ed) with
      | ok ex => exact ⟨ex, rfl⟩
      | error e => rw [hfd] at hx; simp [Except.isOk, Except.toBool] at hx
    obtain ⟨l, hl⟩ := ih (idx + 1) (fun e he => hall e (by simp [he]))
    exact ⟨ex :: l, by simp [Job.parseExList, hex, hl, Except.map]⟩

theorem customSetsExLoop_ok_of_all {exs : List Val} :
    ∀ idx,
      (∀ e ∈ exs, (∃ ed, e = Val.dict ed) ∧ (Exercise.from_dict e).isOk = true) →
      Job.customSetsExLoop idx exs = .ok () := by
  induction exs with
  | nil => exact fun _ _ => rfl
  | cons x rest ih =>
    intro idx hall
    obtain ⟨⟨ed, rfl⟩, hx⟩ := hall x (by simp)
    obtain ⟨ex, hex⟩ : ∃ ex, Exercise.from_dict (.dict ed) = .ok ex := by
      cases hfd : Exercise.from_dict (.dict ed) with
      | ok ex => exact ⟨ex, rfl⟩
      | error e => rw [hfd] at hx; simp [Except.isOk, Except.toBool] at hx
    simp [Job.customSetsExLoop, hex,
      ih (idx + 1) (fun e he => hall e (by simp [he]))]

def c1NodeWith (name : String) (r : Int) (exs : List Val) : PyDict :=
  [("NAME", .s name), ("MODE", .s "custom_sets"), ("Rounds", .i r),
   ("EXERCISES", .list exs)]

def c1NodeNoRounds (name : String) (exs : List Val) : PyDict :=
  [("NAME", .s name), ("MODE", .s "custom_sets"), ("EXERCISES", .list exs)]

section C1Lemmas

variable {name : String} {r : Int} {exs : List Val}

theorem c1_name_ne (hne : pyStrip name ≠ "") : name ≠ "" := by
  intro h
  exact hne (by simp [h, pyStrip])

theorem c1_parseName_with (hne : pyStrip name ≠ "")
    (hlen : (pyStrip name).length ≤ MAX_NAME_LEN) :
    Job.parseName (c1NodeWith name r exs) = .ok (pyStrip name) := by
  have h1 : pyGet (c1NodeWith name r exs) "NAME" = .s name := rfl
  have h2 : pyGet (c1NodeWith name r exs) "name" = .none := rfl
  have hlen' : ¬ (pyStrip name).length > MAX_NAME_LEN := by omega
  simp [Job.parseName, h1, h2, pyOr, truthy, pyStrVal, c1_name_ne hne, hne,
    hlen']

theorem c1_parseName_no (hne : pyStrip name ≠ "")
    (hlen : (pyStrip name).length ≤ MAX_NAME_LEN) :
    Job.parseName (c1NodeNoRounds name exs) = .ok (pyStrip name) := by
  have h1 : pyGet (c1NodeNoRounds name exs) "NAME" = .s name := rfl
  have h2 : pyGet (c1NodeNoRounds name exs) "name" = .none := rfl
  have hlen' : ¬ (pyStrip name).length > MAX_NAME_LEN := by omega
  simp [Job.parseName, h1, h2, pyOr, truthy, pyStrVal, c1_name_ne hne, hne,
    hlen']

theorem c1_parseRounds_with (hr : 0 < r) :
    Job.parseRounds (c1NodeWith name r exs) .CUSTOM_SETS = .ok (some r) := by
  have h1 : hasKey (c1NodeWith name r exs) "Rounds" = true := rfl
  have h2 : pyGet (c1NodeWith name r exs) "Rounds" = .i r := rfl
  have hr' : ¬ r ≤ 0 := by omega
  simp [Job.parseRounds, h1, h2, pyIntVal, hr', Except.bind]

theorem c1_parseCommon_with (hne : pyStrip name ≠ "")
    (hlen : (pyStrip name).length ≤ MAX_NAME_LEN) (hr : 0 < r) :
    Job.parseCommon (c1NodeWith name r exs) = .ok
      { name := pyStrip name, mode := .CUSTOM_SETS, description := none,
        rounds := some r, wts := none, wtm := none, rti := none, rbe := none,
        rbr := none, cadence := none } := by
  have hMode : Job.parseMode (c1NodeWith name r exs) = .ok .CUSTOM_SETS := by
    rfl
  have hDesc : Job.parseDescription (c1NodeWith name r exs) = .ok none := rfl
  have hWts : parseOptIntVal (pyGet (c1NodeWith name r exs)
      "work_time_in_seconds") JobErr.wtsNotInt = .ok none := rfl
  have hWtm : Job.parseWtm (c1NodeWith name r exs) .CUSTOM_SETS
      = .ok none := rfl
  have hRti : parseOptIntVal (pyGet (c1NodeWith name r exs)
      "rest_time_in_seconds") JobErr.rtiNotInt = .ok none := rfl
  have hRbe : parseOptIntVal
      (pyOr (pyGet (c1NodeWith name r exs) "Rest_between_exercises_in_seconds")
        (pyGet (c1NodeWith name r exs) "rest_between_exercises_in_seconds"))
      JobErr.rbeNotInt = .ok none := rfl
  have hRbr : parseOptIntVal
      (pyOr (pyGet (c1NodeWith name r exs) "Rest_between_rounds_in_seconds")
        (pyGet (c1NodeWith name r exs) "rest_between_rounds_in_seconds"))
      JobErr.rbrNotInt = .ok none := rfl
  have hCad : Job.parseCadence (c1NodeWith name r exs) = .ok none := rfl
  simp [Job.parseCommon, c1_parseName_with hne hlen, hMode, hDesc,
    c1_parseRounds_with hr, hWts, hWtm, hRti, hRbe, hRbr, hCad, Except.bind]

theorem c1_parseCommon_no (hne : pyStrip name ≠ "")
    (hlen : (pyStrip name).length ≤ MAX_NAME_LEN) :
    Job.parseCommon (c1NodeNoRounds name exs) = .ok
      { name := pyStrip name, mode := .CUSTOM_SETS, description := none,
        rounds := none, wts := none, wtm := none, rti := none, rbe := none,
        rbr := none, cadence := none } := by
  have hMode : Job.parseMode (c1NodeNoRounds name exs) = .ok .CUSTOM_SETS := by
    rfl
  have hDesc : Job.parseDescription (c1NodeNoRounds name exs) = .ok none := rfl
  have hRounds : Job.parseRounds (c1NodeNoRounds name exs) .CUSTOM_SETS
      = .ok none := rfl
  have hWts : parseOptIntVal (pyGet (c1NodeNoRounds name exs)
      "work_time_in_seconds") JobErr.wtsNotInt = .ok none := rfl
  have hWtm : Job.parseWtm (c1NodeNoRounds name exs) .CUSTOM_SETS
      = .ok none := rfl
  have hRti : parseOptIntVal (pyGet (c1NodeNoRounds name exs)
      "rest_time_in_seconds") JobErr.rtiNotInt = .ok none := rfl
  have hRbe : parseOptIntVal
      (pyOr (pyGet (c1NodeNoRounds name exs)
          "Rest_between_exercises_in_seconds")
        (pyGet (c1NodeNoRounds name exs) "rest_between_exercises_in_seconds"))
      JobErr.rbeNotInt = .ok none := rfl
  have hRbr : parseOptIntVal
      (pyOr (pyGet (c1NodeNoRounds name exs) "Rest_between_rounds_in_seconds")
        (pyGet (c1NodeNoRounds name exs) "rest_between_rounds_in_seconds"))
      JobErr.rbrNotInt = .ok none := rfl
  have hCad : Job.parseCadence (c1NodeNoRounds name exs) = .ok none := rfl
  simp [Job.parseCommon, c1_parseName_no hne hlen, hMode, hDesc, hRounds,
    hWts, hWtm, hRti, hRbe, hRbr, hCad, Except.bind]

theorem c1_parseExercises_with (hnil : exs ≠ [])
    (hall : ∀ e ∈ exs,
      (∃ ed, e = Val.dict ed) ∧ (Exercise.from_dict e).isOk = true) :
    ∃ l, Job.parseExercises (c1NodeWith name r exs) = .ok l := by
  obtain ⟨l, hl⟩ := parseExList_ok_of_all 0 hall
  have hemp : exs.isEmpty = false := by
    cases exs with
    | nil => exact absurd rfl hnil
    | cons a b => rfl
  have hraw : Job.exercisesRaw (c1NodeWith name r exs) = .list exs := by
    have h1 : pyGet (c1NodeWith name r exs) "EXERCISES" = .list exs := rfl
    have h2 : pyGet (c1NodeWith name r exs) "Exercises" = .none := rfl
    have h3 : pyGet (c1NodeWith name r exs) "exercises" = .none := rfl
    simp [Job.exercisesRaw, h1, h2, h3, pyOr, truthy, hemp]
  refine ⟨l, ?_⟩
  simp [Job.parseExercises, hraw, hl]

theorem c1_parseExercises_no (hnil : exs ≠ [])
    (hall : ∀ e ∈ exs,
      (∃ ed, e = Val.dict ed) ∧ (Exercise.from_dict e).isOk = true) :
    ∃ l, Job.parseExercises (c1NodeNoRounds name exs) = .ok l := by
  obtain ⟨l, hl⟩ := parseExList_ok_of_all 0 hall
  have hemp : exs.isEmpty = false := by
    cases exs with
    | nil => exact absurd rfl hnil
    | cons a b => rfl
  have hraw : Job.exercisesRaw (c1NodeNoRounds name exs) = .list exs := by
    have h1 : pyGet (c1NodeNoRounds name exs) "EXERCISES" = .list exs := rfl
    have h2 : pyGet (c1NodeNoRounds name exs) "Exercises" = .none := rfl
    have h3 : pyGet (c1NodeNoRounds name exs) "exercises" = .none := rfl
    simp [Job.exercisesRaw, h1, h2, h3, pyOr, truthy, hemp]
  refine ⟨l, ?_⟩
  simp [Job.parseExercises, hraw, hl]

theorem c1_from_dict_with (hne : pyStrip name ≠ "")
    (hlen : (pyStrip name).length ≤ MAX_NAME_LEN) (hr : 0 < r)
    (hnil : exs ≠ [])
    (hall : ∀ e ∈ exs,
      (∃ ed, e = Val.dict ed) ∧ (Exercise.from_dict e).isOk = true) :
    (Job.from_dict (.dict (c1NodeWith name r exs))).map Job.rounds
      = .ok (some r) := by
  obtain ⟨l, hl⟩ := @c1_parseExercises_with name r exs hnil hall
  have hFlags : (coerceFlag (eccRawOf (c1NodeWith name r exs)) &&
      coerceFlag (isoRawOf (c1NodeWith name r exs))) = false := rfl
  have hRules : Job.checkModeRules JobMode.CUSTOM_SETS l = .ok () := rfl
  have hExtra : collectExtra JobErr.extraKeyTooLong jobCoreKeys
      (c1NodeWith name r exs) = .ok [] := rfl
  have hok := from_dict_ok_iff.mpr
    ⟨_, l, [], c1_parseCommon_with hne hlen hr, hFlags, hl, hRules, hExtra,
      rfl⟩
  rw [hok]
  rfl

theorem c1_from_dict_no (hne : pyStrip name ≠ "")
    (hlen : (pyStrip name).length ≤ MAX_NAME_LEN) (hnil : exs ≠ [])
    (hall : ∀ e ∈ exs,
      (∃ ed, e = Val.dict ed) ∧ (Exercise.from_dict e).isOk = true) :
    (Job.from_dict (.dict (c1NodeNoRounds name exs))).map Job.rounds
      = .ok none := by
  obtain ⟨l, hl⟩ := @c1_parseExercises_no name exs hnil hall
  have hFlags : (coerceFlag (eccRawOf (c1NodeNoRounds name exs)) &&
      coerceFlag (isoRawOf (c1NodeNoRounds name exs))) = false := rfl
  have hRules : Job.checkModeRules JobMode.CUSTOM_SETS l = .ok () := rfl
  have hExtra : collectExtra JobErr.extraKeyTooLong jobCoreKeys
      (c1NodeNoRounds name exs) = .ok [] := rfl
  have hok := from_dict_ok_iff.mpr
    ⟨_, l, [], c1_parseCommon_no hne hlen, hFlags, hl, hRules, hExtra, rfl⟩
  rw [hok]
  rfl

theorem c1_factory_with (hne : pyStrip name ≠ "")
    (hr : 0 < r) (hnil : exs ≠ [])
    (hall : ∀ e ∈ exs,
      (∃ ed, e = Val.dict ed) ∧ (Exercise.from_dict e).isOk = true) :
    Job.from_dict_custom_sets (.dict (c1NodeWith name r exs))
      = Job.from_dict (.dict (c1NodeWith name r exs)) := by
  have h1 : pyStrVal (pyGet (c1NodeWith name r exs) "MODE")
      = some "custom_sets" := rfl
  have hm : pyLower (pyStrip "custom_sets") = "custom_sets" := by decide
  have h2 : pyGet (c1NodeWith name r exs) "NAME" = .s name := rfl
  have h3 : pyGet (c1NodeWith name r exs) "name" = .none := rfl
  have h4 : hasKey (c1NodeWith name r exs) "Rounds" = true := rfl
  have h5 : pyGet (c1NodeWith name r exs) "Rounds" = .i r := rfl
  have h6 : hasKey (c1NodeWith name r exs) "EXERCISES" = true := rfl
  have h7 : pyGet (c1NodeWith name r exs) "EXERCISES" = .list exs := rfl
  have hr' : ¬ r ≤ 0 := by omega
  have hemp : exs.isEmpty = false := by
    cases exs with
    | nil => exact absurd rfl hnil
    | cons a b => rfl
  simp [Job.from_dict_custom_sets, h1, hm, h2, h3, h4, h5, h6, h7, pyOr,
    truthy, c1_name_ne hne, pyIntVal, hr', hemp,
    customSetsExLoop_ok_of_all 0 hall, Except.bind]

theorem c1_factory_no (hne : pyStrip name ≠ "") :
    Job.from_dict_custom_sets (.dict (c1NodeNoRounds name exs))
      = .error .missingRounds := by
  have h1 : pyStrVal (pyGet (c1NodeNoRounds name exs) "MODE")
      = some "custom_sets" := rfl
  have hm : pyLower (pyStrip "custom_sets") = "custom_sets" := by decide
  have h2 : pyGet (c1NodeNoRounds name exs) "NAME" = .s name := rfl
  have h3 : pyGet (c1NodeNoRounds name exs) "name" = .none := rfl
  have h4 : hasKey (c1NodeNoRounds name exs) "Rounds" = false := rfl
  simp [Job.from_dict_custom_sets, h1, hm, h2, h3, h4, pyOr, truthy,
    c1_name_ne hne]

end C1Lemmas

/-- C1 (amended): for every node `{NAME, MODE: custom_sets, Rounds: r > 0,
EXERCISES: non-empty list of valid exercise objects}` both entry points
succeed and build `rounds = r`; with `Rounds` absent, the custom_sets
factory `Job.from_dict_custom_sets` fails with the missing-Rounds error
(whose message mentions `Rounds`), while the generic `Job.from_dict` used
by the stage validator instead *succeeds* with `rounds = None`. -/
theorem c1_custom_sets_rounds :
    ∀ (name : String) (r : Int) (exs : List Val),
      pyStrip name ≠ "" → (pyStrip name).length ≤ MAX_NAME_LEN → 0 < r →
      exs ≠ [] →
      (∀ e ∈ exs,
        (∃ ed, e = Val.dict ed) ∧ (Exercise.from_dict e).isOk = true) →
      ((Job.from_dict_custom_sets (.dict (c1NodeWith name r exs))).map
          Job.rounds = .ok (some r) ∧
        (Job.from_dict (.dict (c1NodeWith name r exs))).map Job.rounds
          = .ok (some r)) ∧
      ((Job.from_dict_custom_sets (.dict (c1NodeNoRounds name exs))).map
          Job.rounds = .error .missingRounds ∧
        (∃ p q, JobErr.missingRounds.message = p ++ "Rounds" ++ q) ∧
        (Job.from_dict (.dict (c1NodeNoRounds name exs))).map Job.rounds
          = .ok none) := by
  intro name r exs hne hlen hr hnil hall
  refine ⟨⟨?_, c1_from_dict_with hne hlen hr hnil hall⟩,
    ⟨?_, ⟨"missing required field '", "'", by decide⟩,
      c1_from_dict_no hne hlen hnil hall⟩⟩
  · rw [c1_factory_with hne hr hnil hall]
    exact c1_from_dict_with hne hlen hr hnil hall
  · rw [c1_factory_no hne]
    rfl

def c1Pushups : Val := .dict [("NAME", .s "Push-ups"), ("reps", .i 10)]

theorem c1_custom_sets_rounds_witness :
    (Job.from_dict_custom_sets
        (.dict (c1NodeWith "Upper Body" 3 [c1Pushups]))).map Job.rounds
      = .ok (some 3) ∧
    (Job.from_dict_custom_sets
        (.dict (c1NodeNoRounds "Upper Body" [c1Pushups]))).map Job.rounds
      = .error .missingRounds ∧
    (Job.from_dict (.dict (c1NodeNoRounds "Upper Body" [c1Pushups]))).map
        Job.rounds = .ok none := by
  have h := c1_custom_sets_rounds "Upper Body" 3 [c1Pushups] (by decide)
    (by decide) (by decide) (by simp)
    (by
      intro e he
      simp only [List.mem_singleton] at he
      subst he
      exact ⟨⟨_, rfl⟩, by decide⟩)
  exact ⟨h.1.1, h.2.1, h.2.2.2⟩

def c1ScenarioNoRounds : Val :=
  .dict [("NAME", .s "Upper Body"), ("MODE", .s "custom_sets"),
         ("EXERCISES", .list [.dict [("NAME", .s "Push-ups"),
                                     ("reps", .i 10)]])]

/-- C1 counterexample: the spec's no-`Rounds` custom_sets scenario, fed to
the generic `Job.from_dict` (the entry point the stage validator uses),
*succeeds* with `rounds = None` instead of failing with a MissingField
error as claimed. -/
theorem c1_counterexample :
    (Job.from_dict c1ScenarioNoRounds).map
      (fun j => (j.mode, j.rounds, j.exercises.map Exercise.reps))
      = .ok (.CUSTOM_SETS, none, [some 10]) := by
  decide

-- ======================================================================
-- C2: TABATA reps rule (corrected)
-- ======================================================================

theorem pyGet_dictSet_ne {k k' : String} (h : k' ≠ k) :
    ∀ {d : PyDict} {v : Val}, pyGet (dictSet d k v) k' = pyGet d k' := by
  intro d v
  induction d with
  | nil => simp [dictSet, pyGet, Ne.symm h]
  | cons kv rest ih =>
    obtain ⟨k0, v0⟩ := kv
    by_cases hk : k0 = k
    · subst hk
      simp [dictSet, pyGet, Ne.symm h]
    · simp only [dictSet]
      rw [if_neg hk]
      by_cases hk' : k0 = k'
      · simp [pyGet, hk']
      · simp [pyGet, hk', ih]

/-- Whether an exercise node is a mapping that contains the key `reps`. -/
def exHasRepsKey (e : Val) : Bool :=
  match e with
  | .dict ed => hasKey ed "reps"
  | _ => false

theorem tabataExLoop_all {l : List Val} :
    ∀ {i : Nat} {u : Unit}, Job.tabataExLoop i l = .ok u →
      ∀ e ∈ l, exHasRepsKey e = true := by
  induction l with
  | nil => intro i u _ e he; simp at he
  | cons x rest ih =>
    intro i u h e he
    unfold Job.tabataExLoop at h
    split at h
    next ed =>
      split at h
      next hk => simp at h
      next hk =>
        split at h
        next ex hex =>
          rcases List.mem_cons.mp he with rfl | hm
          · simp only [exHasRepsKey]
            simpa using hk
          · exact ih h e hm
        next exc hexc => simp at h
    next => simp at h

theorem tabataRest_ok_inv {d' : PyDict} {j : Job}
    (h : Job.tabataRest d' = .ok j) :
    ∃ l, pyGet d' "EXERCISES" = .list l ∧ (∀ e ∈ l, exHasRepsKey e = true) ∧
      Job.from_dict (.dict d') = .ok j := by
  unfold Job.tabataRest at h
  split at h
  next hk => simp at h
  next hk =>
    split at h
    next exs heq =>
      split at h
      next hemp => simp at h
      next hemp =>
        rw [exbind_ok] at h
        obtain ⟨u, hu, h⟩ := h
        exact ⟨exs, heq, tabataExLoop_all hu, h⟩
    next => simp at h

theorem from_dict_tabata_ok_inv {d : PyDict} {j : Job}
    (h : Job.from_dict_tabata (.dict d) = .ok j) :
    ∃ l, pyGet d "EXERCISES" = .list l ∧ ∀ e ∈ l, exHasRepsKey e = true := by
  simp only [Job.from_dict_tabata] at h
  split at h
  next => simp at h
  next modeRaw heq =>
    split at h
    next hmode => simp at h
    next hmode =>
      split at h
      next hname => simp at h
      next hname =>
        split at h
        next hro =>
          obtain ⟨l, hl, hall, _⟩ := tabataRest_ok_inv h
          rw [pyGet_dictSet_ne (show "EXERCISES" ≠ "Rounds" by decide)] at hl
          exact ⟨l, hl, hall⟩
        next v hro =>
          split at h
          next => simp at h
          next r hr =>
            split at h
            next => simp at h
            next =>
              obtain ⟨l, hl, hall, _⟩ := tabataRest_ok_inv h
              exact ⟨l, hl, hall⟩

def c2ScenarioNode : Val :=
  .dict [("NAME", .s "T1"), ("MODE", .s "TABATA"),
         ("EXERCISES", .list [.dict [("NAME", .s "Wall Balls")]])]

/-- C2 (amended): a job that the TABATA factory accepts has every exercise
node carrying a `reps` *key* (positivity is not checked, and the generic
`Job.from_dict` applies no TABATA-specific reps rule at all); the spec's
scenario node fails naming exercise index 0 through both entry points,
with the exact source messages. -/
theorem c2_tabata_reps :
    (∀ (d : PyDict) (j : Job) (l : List Val),
        Job.from_dict_tabata (.dict d) = .ok j →
        pyGet d "EXERCISES" = .list l →
        ∀ e ∈ l, exHasRepsKey e = true) ∧
    Job.from_dict_tabata c2ScenarioNode = .error (.tabataRepsMissing 0) ∧
    (JobErr.tabataRepsMissing 0).message
      = "invalid exercise at index 0: missing required field 'reps'" ∧
    Job.from_dict c2ScenarioNode
      = .error (.invalidExercise 0 (.missingRepsOrWts "Wall Balls")) ∧
    (JobErr.invalidExercise 0 (.missingRepsOrWts "Wall Balls")).message
      = "invalid exercise at index 0: Exercise 'Wall Balls': at least one of 'reps' or 'work_time_in_seconds' must be present" := by
  refine ⟨?_, by rfl, by decide, by rfl, by decide⟩
  intro d j l h hl
  obtain ⟨l', hl', hall⟩ := from_dict_tabata_ok_inv h
  rw [hl] at hl'
  rw [Val.list.injEq] at hl'
  subst hl'
  exact hall

def c2OkD : PyDict :=
  [("NAME", .s "T"), ("MODE", .s "TABATA"),
   ("EXERCISES", .list [.dict [("NAME", .s "W"), ("reps", .i 50)]])]

theorem c2_tabata_reps_witness :
    exHasRepsKey (Val.dict [("NAME", .s "W"), ("reps", .i 50)]) = true := by
  have hok : (Job.from_dict_tabata (.dict c2OkD)).map (fun _ => ()) = .ok () :=
    by decide
  cases hj : Job.from_dict_tabata (.dict c2OkD) with
  | error e => rw [hj] at hok; simp [Except.map] at hok
  | ok j =>
    exact c2_tabata_reps.1 c2OkD j [.dict [("NAME", .s "W"), ("reps", .i 50)]]
      hj rfl _ (by simp)

def c2ZeroRepsNode : Val :=
  .dict [("NAME", .s "T1"), ("MODE", .s "TABATA"),
         ("EXERCISES", .list [.dict [("NAME", .s "W"), ("reps", .i 0)]])]

def c2WtsOnlyNode : Val :=
  .dict [("NAME", .s "T1"), ("MODE", .s "TABATA"),
         ("EXERCISES", .list [.dict [("NAME", .s "W"),
                                     ("work_time_in_seconds", .i 20)]])]

/-- C2 counterexample: a TABATA node whose exercise declares `reps: 0` (not
positive) passes the TABATA factory, and a TABATA node whose exercise
declares no `reps` at all (only `work_time_in_seconds`) passes the generic
`Job.from_dict` — refuting "validation fails whenever some exercise does
not declare a positive reps value" for both entry points. -/
theorem c2_counterexample :
    (Job.from_dict_tabata c2ZeroRepsNode).map
        (fun j => (j.mode, j.rounds, j.exercises.map Exercise.reps))
      = .ok (.TABATA, some 8, [some 0]) ∧
    ¬ ((0 : Int) > 0) ∧
    (Job.from_dict c2WtsOnlyNode).map
        (fun j => (j.mode, j.exercises.map Exercise.reps))
      = .ok (.TABATA, [none]) := by
  exact ⟨by decide, by decide, by decide⟩

-- ======================================================================
-- C5: mode synonym resolution and error wording (corrected)
-- ======================================================================

/-- The canonical mode for one lowercased name (the six names
`JobMode.from_str` compares against). -/
def modeOfLower (l : String) : Option JobMode :=
  if l = "custom_sets" then some .CUSTOM_SETS
  else if l = "tabata" then some .TABATA
  else if l = "emom" then some .EMOM
  else if l = "amrap" then some .AMRAP
  else if l = "for_time" then some .FOR_TIME
  else if l = "edt" then some .EDT
  else none

/-- C5 (amended): `JobMode.from_str` resolves exactly the six canonical
names after stripping and lowercasing, failing otherwise with the
*stripped* input embedded in `unsupported MODE '...'` (so surrounding
whitespace of the raw input is not reproduced verbatim); the v2 synonym
table resolves each of its declared synonyms (including the v2-only
`CUSTOM`/`custom`) to its canonical id, agreeing with `JobMode.from_str`
on every shared synonym up to the case of the canonical id (the inline
enum value for FOR_TIME is `"for_time"` while the v2 canonical string is
`"FOR_TIME"`); an unsupported MODE in the v2 normalizer embeds the raw
(unstripped) input in its error message. -/
theorem c5_mode_resolution :
    (∀ sv : String,
        JobMode.from_str (.s sv) =
          match modeOfLower (pyLower (pyStrip sv)) with
          | some m => .ok m
          | none => .error (.unsupportedMode (pyStrip sv))) ∧
    (MODE_SYNONYMS_V2.all
        (fun kc => resolveModeV2 kc.1 == some kc.2) = true) ∧
    (MODE_SYNONYMS_V2.all
        (fun kc =>
          (pyLower kc.1 == "custom") ||
            (match JobMode.from_str (.s kc.1) with
             | .ok m => pyLower m.value == pyLower kc.2
             | .error _ => false)) = true) ∧
    (∀ sv : String, modeOfLower (pyLower (pyStrip sv)) = none →
        ∃ p q, (JobErr.unsupportedMode (pyStrip sv)).message
          = p ++ pyStrip sv ++ q) ∧
    (∀ sv : String, pyStrip sv ≠ "" → resolveModeV2 (pyStrip sv) = none →
        ∃ p q, normalizeJobV2 [("MODE", Val.s sv)] = .error (p ++ sv ++ q)) := by
  refine ⟨?_, by decide, by decide, ?_, ?_⟩
  · intro sv
    simp only [JobMode.from_str, modeOfLower, pyStrVal]
    by_cases h1 : pyLower (pyStrip sv) = "custom_sets"
    · simp [h1]
    by_cases h2 : pyLower (pyStrip sv) = "tabata"
    · simp [h1, h2]
    by_cases h3 : pyLower (pyStrip sv) = "emom"
    · simp [h1, h2, h3]
    by_cases h4 : pyLower (pyStrip sv) = "amrap"
    · simp [h1, h2, h3, h4]
    by_cases h5 : pyLower (pyStrip sv) = "for_time"
    · simp [h1, h2, h3, h4, h5]
    by_cases h6 : pyLower (pyStrip sv) = "edt"
    · simp [h1, h2, h3, h4, h5, h6]
    · simp [h1, h2, h3, h4, h5, h6]
  · intro sv _
    refine ⟨"unsupported MODE '", "'", ?_⟩
    simp only [JobErr.message, pyRepr, String.append_assoc]
    rw [← String.append_assoc,
      show ("unsupported MODE " : String) ++ "'" = "unsupported MODE '" from
        by decide]
  · intro sv h1 h2
    have hmsg : normalizeJobV2 [("MODE", Val.s sv)]
        = .error ("Unsupported MODE " ++ pyRepr sv ++ " in job " ++
            pyReprVal (Val.s "?")) := by
      simp [normalizeJobV2, pyGet, pyOr, truthy, pyStrVal, h1, h2]
    refine ⟨"Unsupported MODE '", "' in job '?'", ?_⟩
    rw [hmsg]
    have hq : pyReprVal (Val.s "?") = "'?'" := by decide
    rw [hq, Except.error.injEq]
    simp only [pyRepr, String.append_assoc]
    rw [← String.append_assoc,
      show ("Unsupported MODE " : String) ++ "'" = "Unsupported MODE '" from
        by decide,
      show ("'" : String) ++ (" in job " ++ "'?'") = "' in job '?'" from
        by decide]

theorem c5_mode_resolution_witness :
    (JobMode.from_str (.s " TaBaTa ") = .ok .TABATA) ∧
    (∃ p q, (JobErr.unsupportedMode (pyStrip "xyz")).message
      = p ++ pyStrip "xyz" ++ q) ∧
    (∃ p q, normalizeJobV2 [("MODE", Val.s "xyz")] = .error (p ++ "xyz" ++ q)) := by
  refine ⟨?_, c5_mode_resolution.2.2.2.1 "xyz" (by decide), ?_⟩
  · have h := c5_mode_resolution.1 " TaBaTa "
    rw [h]
    decide
  · have h := c5_mode_resolution.2.2.2.2 "xyz" (by decide) (by decide)
    exact h

/-- C5 counterexample: for the raw MODE string `" xyz "`,
`JobMode.from_str` fails with the message `unsupported MODE 'xyz'`, which
does not contain the original raw input `" xyz "` verbatim (the embedded
string is stripped); and the declared v2 synonym `"CUSTOM"` does not
resolve at all through the inline `JobMode.from_str`. -/
theorem c5_counterexample :
    JobMode.from_str (.s " xyz ") = .error (.unsupportedMode "xyz") ∧
    (JobErr.unsupportedMode "xyz").message = "unsupported MODE 'xyz'" ∧
    ¬ (" xyz ".data <:+: "unsupported MODE 'xyz'".data) ∧
    JobMode.from_str (.s "CUSTOM") = .error (.unsupportedMode "CUSTOM") ∧
    resolveModeV2 "CUSTOM" = some "custom_sets" ∧
    JobMode.from_str (.s "for_time") = .ok .FOR_TIME ∧
    JobMode.FOR_TIME.value = "for_time" ∧
    resolveModeV2 "for_time" = some "FOR_TIME" ∧
    "for_time" ≠ "FOR_TIME" := by
  exact ⟨by decide, by decide, by decide, by decide, by decide, by decide,
    by decide, by decide, by decide⟩

-- ======================================================================
-- C7: truncation laws (corrected)
-- ======================================================================

theorem truncate_laws (s : String) (m : Nat) :
    (_truncate s m).length ≤ m ∧ (_truncate s m).data <+: s.data := by
  unfold _truncate
  split
  next h => exact ⟨h, ⟨[], by simp⟩⟩
  next h =>
    constructor
    · show (s.data.take m).length ≤ m
      simp
    · exact ⟨s.data.drop m, List.take_append_drop m s.data⟩

theorem pyStrVal_eq_some {v : Val} {sv : String}
    (h : pyStrVal v = some sv) : v = .s sv := by
  cases v <;> simp [pyStrVal] at h
  simp [h]

theorem parseName_ok_len {d : PyDict} {n : String}
    (h : Job.parseName d = .ok n) : n.length ≤ MAX_NAME_LEN := by
  unfold Job.parseName at h
  split at h
  · split at h
    · simp at h
    · split at h
      · simp at h
      next hlen =>
        rw [Except.ok.injEq] at h
        subst h
        omega
  · simp at h

theorem parseDescription_ok {d : PyDict} {desc : Option String}
    (h : Job.parseDescription d = .ok desc) :
    desc = none ∨
      ∃ s0, pyOr (pyGet d "description") (pyGet d "Description") = .s s0 ∧
        desc = some (_truncate (pyStrip s0) MAX_DESC_LEN) := by
  unfold Job.parseDescription at h
  split at h
  · rw [Except.ok.injEq] at h
    exact Or.inl h.symm
  next v hv =>
    split at h
    next sv hsv =>
      rw [Except.ok.injEq] at h
      exact Or.inr ⟨sv, pyStrVal_eq_some hsv, h.symm⟩
    next hsv => simp at h

theorem collectExtra_ok_mem {ε} {mkErr : String → ε} {core : List String} :
    ∀ {l extra : PyDict}, collectExtra mkErr core l = .ok extra →
      ∀ kv ∈ extra, kv.1.length ≤ MAX_EXTRA_KEY_LEN ∧
        ∃ v0, (kv.1, v0) ∈ l ∧
          ∀ sv, kv.2 = .s sv → sv.length ≤ MAX_EXTRA_VAL_LEN ∧
            ∃ sv0, v0 = .s sv0 ∧ sv.data <+: sv0.data := by
  intro l
  induction l with
  | nil =>
    intro extra h kv hkv
    simp [collectExtra] at h
    subst h
    simp at hkv
  | cons p rest ih =>
    intro extra h kv hkv
    obtain ⟨k, v⟩ := p
    unfold collectExtra at h
    split at h
    · obtain ⟨hlen, v0, hv0, hrel⟩ := ih h kv hkv
      exact ⟨hlen, v0, List.mem_cons_of_mem _ hv0, hrel⟩
    next hcore =>
      split at h
      next hklen => simp at h
      next hklen =>
        simp only [exmap_ok] at h
        obtain ⟨tail, htail, hcons⟩ := h
        subst hcons
        rcases List.mem_cons.mp hkv with rfl | hm
        · refine ⟨by simpa using Nat.le_of_not_lt (by simpa using hklen),
            v, by simp, ?_⟩
          intro sv hsv
          cases v with
          | s sv0 =>
            simp only at hsv
            split at hsv
            next hlong =>
              rw [Val.s.injEq] at hsv
              subst hsv
              exact ⟨(truncate_laws sv0 MAX_EXTRA_VAL_LEN).1,
                sv0, rfl, (truncate_laws sv0 MAX_EXTRA_VAL_LEN).2⟩
            next hlong =>
              rw [Val.s.injEq] at hsv
              subst hsv
              exact ⟨Nat.le_of_not_lt (by simpa using hlong), sv0, rfl,
                ⟨[], by simp⟩⟩
          | none => simp at hsv
          | b bv => simp at hsv
          | i iv => simp at hsv
          | list lv => simp at hsv
          | dict dv => simp at hsv
        · obtain ⟨hlen, v0, hv0, hrel⟩ := ih htail kv hm
          exact ⟨hlen, v0, List.mem_cons_of_mem _ hv0, hrel⟩

theorem exercise_ok_fields {dx : PyDict} {ex : Exercise}
    (h : Exercise.from_dict (.dict dx) = .ok ex) :
    ex.notes = (firstStrVal dx ["notes", "note", "DESCRIPTION", "Description",
        "description"]).map (fun s => _truncate (pyStrip s) MAX_NOTES_LEN) ∧
    ex.help = (pyStrVal (pyGet dx "help")).map
      (fun s => _truncate (pyStrip s) MAX_NOTES_LEN) := by
  simp only [Exercise.from_dict] at h
  rw [exbind_ok] at h; obtain ⟨name, _, h⟩ := h
  rw [exbind_ok] at h; obtain ⟨reps, _, h⟩ := h
  rw [exbind_ok] at h; obtain ⟨wts, _, h⟩ := h
  split at h
  · simp at h
  · rw [exbind_ok] at h; obtain ⟨weight, _, h⟩ := h
    rw [exbind_ok] at h; obtain ⟨extra, _, h⟩ := h
    rw [Except.ok.injEq] at h
    subst h
    exact ⟨rfl, rfl⟩

def c7DescNode : PyDict :=
  [("NAME", .s "J"), ("MODE", .s "AMRAP"), ("description", .s " a")]

/-- C7 counterexample: a validated job whose `description` input is `" a"`
stores `"a"` (stripped before soft truncation), which is *not* a prefix of
the input string — refuting "validated_value is a prefix of the input". -/
theorem c7_counterexample :
    (Job.from_dict (.dict c7DescNode)).map Job.description = .ok (some "a") ∧
    ¬ ("a".data <+: " a".data) := by
  exact ⟨by decide, by decide⟩

/-- C7 (amended): `_truncate` always returns a prefix of its argument of
length at most the cap; soft-capped fields store a length-bounded *prefix
of the stripped input* (description, notes) or of the raw input
(extra-field values); strict-capped fields are rejected rather than
truncated: a built job's name never exceeds the cap and an over-long NAME
fails validation with the field-too-long error, and extra-field keys are
stored verbatim (the key appears unchanged in the input node) with length
at most the cap. -/
theorem c7_truncation_laws :
    (∀ (s : String) (m : Nat),
        (_truncate s m).length ≤ m ∧ (_truncate s m).data <+: s.data) ∧
    (∀ (d : PyDict) (j : Job), Job.from_dict (.dict d) = .ok j →
        j.name.length ≤ MAX_NAME_LEN ∧
        (∀ s ∈ j.description, s.length ≤ MAX_DESC_LEN ∧
          ∃ s0, pyOr (pyGet d "description") (pyGet d "Description") = .s s0 ∧
            s.data <+: (pyStrip s0).data) ∧
        (∀ kv ∈ j.extra, kv.1.length ≤ MAX_EXTRA_KEY_LEN ∧
          ∃ v0, (kv.1, v0) ∈ d ∧
            ∀ sv, kv.2 = .s sv → sv.length ≤ MAX_EXTRA_VAL_LEN ∧
              ∃ sv0, v0 = .s sv0 ∧ sv.data <+: sv0.data)) ∧
    (∀ (dx : PyDict) (ex : Exercise), Exercise.from_dict (.dict dx) = .ok ex →
        ∀ s ∈ ex.notes, s.length ≤ MAX_NOTES_LEN ∧
          ∃ s0, firstStrVal dx ["notes", "note", "DESCRIPTION", "Description",
              "description"] = some s0 ∧ s.data <+: (pyStrip s0).data) ∧
    (∀ (d : PyDict) (sv : String),
        pyOr (pyGet d "NAME") (pyGet d "name") = .s sv →
        (pyStrip sv).length > MAX_NAME_LEN →
        Job.from_dict (.dict d) = .error .nameTooLong) := by
  refine ⟨truncate_laws, ?_, ?_, ?_⟩
  · intro d j hok
    rw [from_dict_ok_iff] at hok
    obtain ⟨c, exs, extra, hc, hf, hexs, hrules, hextra, rfl⟩ := hok
    rw [parseCommon_ok_iff] at hc
    obtain ⟨name, mode, description, rounds, wts, wtm, rti, rbe, rbr, cadence,
      h1, h2, h3, h4, h5, h6, h7, h8, h9, h10, rfl⟩ := hc
    refine ⟨parseName_ok_len h1, ?_, ?_⟩
    · intro s hs
      simp only [Option.mem_def] at hs
      rcases parseDescription_ok h3 with hnone | ⟨s0, hs0, hdesc⟩
      · rw [hnone] at hs
        simp at hs
      · rw [hdesc, Option.some.injEq] at hs
        subst hs
        exact ⟨(truncate_laws (pyStrip s0) MAX_DESC_LEN).1, s0, hs0,
          (truncate_laws (pyStrip s0) MAX_DESC_LEN).2⟩
    · intro kv hkv
      exact collectExtra_ok_mem hextra kv hkv
  · intro dx ex hok s hs
    obtain ⟨hnotes, _⟩ := exercise_ok_fields hok
    simp only [Option.mem_def] at hs
    rw [hnotes] at hs
    cases hfv : firstStrVal dx ["notes", "note", "DESCRIPTION", "Description",
        "description"] with
    | none => rw [hfv] at hs; simp at hs
    | some s0 =>
      rw [hfv] at hs
      rw [show (some s0).map
            (fun s => _truncate (pyStrip s) MAX_NOTES_LEN)
          = some (_truncate (pyStrip s0) MAX_NOTES_LEN) from rfl,
        Option.some.injEq] at hs
      subst hs
      exact ⟨(truncate_laws (pyStrip s0) MAX_NOTES_LEN).1, s0, rfl,
        (truncate_laws (pyStrip s0) MAX_NOTES_LEN).2⟩
  · intro d sv hsv hlen
    have h1 : pyStrip sv ≠ "" := by
      intro h0
      rw [h0] at hlen
      have : ("" : String).length = 0 := rfl
      omega
    have hpn : Job.parseName d = .error .nameTooLong := by
      unfold Job.parseName
      rw [hsv]
      simp [pyStrVal, h1, hlen]
    have hpc : Job.parseCommon d = .error .nameTooLong := by
      unfold Job.parseCommon
      simp [hpn, Except.bind]
    simp [Job.from_dict, hpc, Except.bind]

def c7LongName : String := "12345678901234567890123456789012345678901"

theorem c7_truncation_laws_witness :
    ((_truncate "abcdef" 3).length ≤ 3 ∧
      (_truncate "abcdef" 3).data <+: "abcdef".data) ∧
    Job.from_dict (.dict [("NAME", .s c7LongName)]) = .error .nameTooLong := by
  refine ⟨c7_truncation_laws.1 "abcdef" 3, ?_⟩
  exact c7_truncation_laws.2.2.2 [("NAME", .s c7LongName)] c7LongName rfl
    (by decide)

-- ======================================================================
-- C8: input-tree mutation (corrected)
-- ======================================================================

theorem pyGet_dictSet_self {k : String} :
    ∀ {d : PyDict} {v : Val}, pyGet (dictSet d k v) k = v := by
  intro d v
  induction d with
  | nil => simp [dictSet, pyGet]
  | cons kv rest ih =>
    obtain ⟨k0, v0⟩ := kv
    by_cases hk : k0 = k
    · subst hk
      simp [dictSet, pyGet]
    · simp only [dictSet]
      rw [if_neg hk]
      simp [pyGet, hk, ih]

theorem hasKey_dictSet_self {k : String} :
    ∀ {d : PyDict} {v : Val}, hasKey (dictSet d k v) k = true := by
  intro d v
  induction d with
  | nil => simp [dictSet, hasKey]
  | cons kv rest ih =>
    obtain ⟨k0, v0⟩ := kv
    by_cases hk : k0 = k
    · subst hk
      simp [dictSet, hasKey]
    · simp only [dictSet]
      rw [if_neg hk]
      simp [hasKey, hk, ih]

theorem from_str_eq_edt {sv : String}
    (h : JobMode.from_str (.s sv) = .ok .EDT) :
    pyLower (pyStrip sv) = "edt" := by
  unfold JobMode.from_str at h
  simp only [pyStrVal] at h
  split at h
  · simp at h
  · split at h
    · simp at h
    · split at h
      · simp at h
      · split at h
        · simp at h
        · split at h
          · simp at h
          · split at h
            next h6 => exact h6
            next => simp at h

/-- The raw `MODE` string of the first job of the first stage (projection
used to observe the v2 normalizer's write into the tree). -/
def firstJobModeStr (w : Val) : Option String :=
  match w with
  | .dict wd =>
    match pyGet wd "STAGES" with
    | .list (st :: _) =>
      match st with
      | .dict sd =>
        match pyGet sd "JOBS" with
        | .list (jv :: _) =>
          match jv with
          | .dict jd => pyStrVal (pyGet jd "MODE")
          | _ => none
        | _ => none
      | _ => none
    | _ => none
  | _ => none

def c8Tree : Val :=
  .dict [("NAME", .s "W"),
         ("STAGES", .list [.dict [("NAME", .s "S"),
           ("JOBS", .list [.dict [("NAME", .s "J"),
                                  ("MODE", .s "CUSTOM")]])]])]

/-- C8 counterexample: running the v2 mode-normalization step over a tree
whose job has `MODE: "CUSTOM"` leaves the caller's tree (returned here as
the post-call state) with `MODE: "custom_sets"` — the input mapping is
mutated in place, refuting "validation leaves the caller's input tree
unchanged in both pipelines". -/
theorem c8_counterexample :
    (validate_and_normalize_modes_v2 c8Tree).map firstJobModeStr
      = .ok (some "custom_sets") ∧
    firstJobModeStr c8Tree = some "CUSTOM" ∧
    ("custom_sets" : String) ≠ "CUSTOM" := by
  exact ⟨by decide, by decide, by decide⟩

/-- C8 (amended): the v2 normalizer rewrites each job node's `MODE` in
place to the canonical synonym (the caller's tree after the call holds the
canonical string, so the input is mutated whenever the spelling differs);
the v1 TABATA factory, by contrast, applies its `Rounds := 8` default on a
*copy* of the node: the built job has `rounds = 8` while the caller's node
still has no `Rounds` value. -/
theorem c8_mode_normalization_mutates :
    (∀ (jd : PyDict) (sv canon : String),
        pyGet jd "MODE" = .s sv → pyStrip sv ≠ "" →
        resolveModeV2 (pyStrip sv) = some canon →
        normalizeJobV2 jd = .ok (dictSet jd "MODE" (.s canon))) ∧
    (∀ (d : PyDict) (j : Job),
        pyGet d "Rounds" = Val.none →
        Job.from_dict_tabata (.dict d) = .ok j →
        j.rounds = some 8) := by
  constructor
  · intro jd sv canon h1 h2 h3
    unfold normalizeJobV2
    rw [h1]
    simp [pyStrVal, h2, h3]
  · intro d j hnone hok
    simp only [Job.from_dict_tabata, hnone] at hok
    split at hok
    next => simp at hok
    next modeRaw heq =>
      split at hok
      next => simp at hok
      next hupper =>
        split at hok
        next => simp at hok
        next =>
          obtain ⟨l, hl, hall, hfd⟩ := tabataRest_ok_inv hok
          rw [from_dict_ok_iff] at hfd
          obtain ⟨c, exs, extra, hc, hfl, hexs, hrules, hextra, rfl⟩ := hfd
          rw [parseCommon_ok_iff] at hc
          obtain ⟨name, mode, description, rounds, wts, wtm, rti, rbe, rbr,
            cadence, h1, h2, h3, h4, h5, h6, h7, h8, h9, h10, rfl⟩ := hc
          simp only
          have hmod : mode ≠ .EDT := by
            intro hedt
            subst hedt
            have hpm : pyGet (dictSet d "Rounds" (Val.i 8)) "MODE"
                = pyGet d "MODE" :=
              pyGet_dictSet_ne (by decide)
            rw [pyStrVal_eq_some heq] at hpm
            unfold Job.parseMode at h2
            rw [hpm] at h2
            have hlow := from_str_eq_edt (by simpa [pyStr] using h2)
            have hup : ¬ pyUpper (pyStrip modeRaw) ≠ "TABATA" := hupper
            rw [not_not] at hup
            have hlemma1 := congrArg String.data hlow
            have hlemma2 := congrArg String.data hup
            simp only [pyLower, pyUpper] at hlemma1 hlemma2
            have hn1 := congrArg List.length hlemma1
            have hn2 := congrArg List.length hlemma2
            simp only [List.length_map] at hn1 hn2
            simp at hn1 hn2
            omega
          have h4' : Job.parseRounds (dictSet d "Rounds" (Val.i 8)) mode
              = .ok (some 8) := by
            unfold Job.parseRounds
            rw [hasKey_dictSet_self, if_pos rfl, pyGet_dictSet_self]
            simp [pyIntVal, hmod, Except.bind]
          rw [h4'] at h4
          rw [Except.ok.injEq] at h4
          exact h4.symm

def c8TabataNoRounds : PyDict :=
  [("NAME", .s "T"), ("MODE", .s "TABATA"),
   ("EXERCISES", .list [.dict [("NAME", .s "W"), ("reps", .i 50)]])]

theorem c8_mode_normalization_mutates_witness :
    normalizeJobV2 [("NAME", Val.s "J"), ("MODE", Val.s "CUSTOM")]
      = .ok (dictSet [("NAME", Val.s "J"), ("MODE", Val.s "CUSTOM")]
          "MODE" (.s "custom_sets")) ∧
    (Job.from_dict_tabata (.dict c8TabataNoRounds)).map Job.rounds
      = .ok (some 8) := by
  constructor
  · exact c8_mode_normalization_mutates.1 _ "CUSTOM" "custom_sets" rfl
      (by decide) (by decide)
  · have hok : (Job.from_dict_tabata (.dict c8TabataNoRounds)).map
        (fun _ => ()) = .ok () := by decide
    cases hj : Job.from_dict_tabata (.dict c8TabataNoRounds) with
    | error e => rw [hj] at hok; simp [Except.map] at hok
    | ok j =>
      have := c8_mode_normalization_mutates.2 c8TabataNoRounds j rfl hj
      simp [Except.map, this]

-- ======================================================================
-- C9: Stage/Workout validator shape, fail-fast, error wrapping (corrected)
-- ======================================================================

theorem rawJobs_ok_ne {d : PyDict} {l : List Val}
    (h : Stage.rawJobs d = .ok l) : l ≠ [] := by
  unfold Stage.rawJobs at h
  repeat' split at h
  all_goals simp_all [List.isEmpty_iff]

theorem rawStages_ok_ne {d : PyDict} {l : List Val}
    (h : Workout.rawStages d = .ok l) : l ≠ [] := by
  unfold Workout.rawStages at h
  repeat' split at h
  all_goals simp_all [List.isEmpty_iff]

theorem parseJobOne_ok {nm : String} {idx : Nat} {jd : PyDict} {j : Job}
    (h : Stage.parseJobOne nm idx jd = .ok j) :
    Job.from_dict (.dict jd) = .ok j := by
  unfold Stage.parseJobOne at h
  repeat' split at h
  all_goals simp_all

theorem parseJobOne_invalidJob {nm : String} {idx : Nat} {jd : PyDict}
    {nm2 : String} {idx2 : Nat} {e : JobErr}
    (h : Stage.parseJobOne nm idx jd = .error (.invalidJob nm2 idx2 e)) :
    nm2 = nm ∧ idx2 = idx ∧ Job.from_dict (.dict jd) = .error e := by
  unfold Stage.parseJobOne at h
  repeat' split at h
  all_goals simp_all

theorem parseJobs_cons_ne {nm : String} {i : Nat} {v : Val} {rest : List Val}
    {out : List Job} (h : Stage.parseJobs nm i (v :: rest) = .ok out) :
    out ≠ [] := by
  unfold Stage.parseJobs at h
  split at h
  · split at h
    · simp only [exmap_ok] at h
      obtain ⟨tail, _, hcons⟩ := h
      rw [← hcons]
      simp
    · simp at h
  · simp at h

theorem parseStages_cons_ne {i : Nat} {v : Val} {rest : List Val}
    {out : List Stage} (h : Workout.parseStages i (v :: rest) = .ok out) :
    out ≠ [] := by
  unfold Workout.parseStages at h
  split at h
  · simp only [exmap_ok] at h
    obtain ⟨tail, _, hcons⟩ := h
    rw [← hcons]
    simp
  · simp at h

theorem stage_ok_jobs_ne {data : Val} {st : Stage}
    (h : Stage.from_dict data = .ok st) : st.jobs ≠ [] := by
  cases data with
  | dict d =>
    simp only [Stage.from_dict] at h
    rw [exbind_ok] at h; obtain ⟨nm, _, h⟩ := h
    rw [exbind_ok] at h; obtain ⟨ds, _, h⟩ := h
    rw [exbind_ok] at h; obtain ⟨l, hl, h⟩ := h
    rw [exbind_ok] at h; obtain ⟨js, hjs, h⟩ := h
    rw [Except.ok.injEq] at h
    subst h
    obtain ⟨v, rest, rfl⟩ : ∃ v rest, l = v :: rest := by
      cases l with
      | nil => exact absurd rfl (rawJobs_ok_ne hl)
      | cons v rest => exact ⟨v, rest, rfl⟩
    simpa using parseJobs_cons_ne hjs
  | none => simp [Stage.from_dict] at h
  | b bv => simp [Stage.from_dict] at h
  | i iv => simp [Stage.from_dict] at h
  | s sv => simp [Stage.from_dict] at h
  | list lv => simp [Stage.from_dict] at h

theorem workout_ok_stages_ne {data : Val} {w : Workout}
    (h : Workout.from_dict data = .ok w) : w.stages ≠ [] := by
  cases data with
  | dict d =>
    simp only [Workout.from_dict] at h
    rw [exbind_ok] at h; obtain ⟨nm, _, h⟩ := h
    rw [exbind_ok] at h; obtain ⟨ds, _, h⟩ := h
    rw [exbind_ok] at h; obtain ⟨l, hl, h⟩ := h
    rw [exbind_ok] at h; obtain ⟨sts, hsts, h⟩ := h
    rw [Except.ok.injEq] at h
    subst h
    obtain ⟨v, rest, rfl⟩ : ∃ v rest, l = v :: rest := by
      cases l with
      | nil => exact absurd rfl (rawStages_ok_ne hl)
      | cons v rest => exact ⟨v, rest, rfl⟩
    simpa using parseStages_cons_ne hsts
  | none => simp [Workout.from_dict] at h
  | b bv => simp [Workout.from_dict] at h
  | i iv => simp [Workout.from_dict] at h
  | s sv => simp [Workout.from_dict] at h
  | list lv => simp [Workout.from_dict] at h

theorem parseStages_error_inv {l : List Val} :
    ∀ {i0 idx : Nat} {e : StageErr},
      Workout.parseStages i0 l = .error (.invalidStage idx e) →
      ∃ pre sv post, l = pre ++ sv :: post ∧ i0 + pre.length = idx ∧
        (∀ v ∈ pre, (Stage.from_dict v).isOk = true) ∧
        Stage.from_dict sv = .error e := by
  induction l with
  | nil => intro i0 idx e h; simp [Workout.parseStages] at h
  | cons v rest ih =>
    intro i0 idx e h
    unfold Workout.parseStages at h
    split at h
    next st hst =>
      simp only [exmap_error] at h
      obtain ⟨pre, sv, post, rfl, hlen, hpre, herr⟩ := ih h
      refine ⟨v :: pre, sv, post, rfl, by simp; omega, ?_, herr⟩
      intro v' hv'
      rcases List.mem_cons.mp hv' with rfl | hm
      · simp [hst, Except.isOk, Except.toBool]
      · exact hpre v' hm
    next e' he' =>
      rw [Except.error.injEq, WorkoutErr.invalidStage.injEq] at h
      obtain ⟨rfl, rfl⟩ := h
      exact ⟨[], v, rest, rfl, by simp, by simp, he'⟩

theorem parseJobs_error_inv {l : List Val} :
    ∀ {nm : String} {i0 idx : Nat} {nm2 : String} {e : JobErr},
      Stage.parseJobs nm i0 l = .error (.invalidJob nm2 idx e) →
      ∃ pre jv post, l = pre ++ jv :: post ∧ i0 + pre.length = idx ∧
        (∀ v ∈ pre, (Job.from_dict v).isOk = true) ∧
        Job.from_dict jv = .error e := by
  induction l with
  | nil => intro nm i0 idx nm2 e h; simp [Stage.parseJobs] at h
  | cons v rest ih =>
    intro nm i0 idx nm2 e h
    unfold Stage.parseJobs at h
    split at h
    next jd =>
      split at h
      next j1 hj1 =>
        simp only [exmap_error] at h
        obtain ⟨pre, jv, post, rfl, hlen, hpre, herr⟩ := ih h
        refine ⟨Val.dict jd :: pre, jv, post, rfl, by simp; omega, ?_, herr⟩
        intro v' hv'
        rcases List.mem_cons.mp hv' with rfl | hm
        · simp [parseJobOne_ok hj1, Except.isOk, Except.toBool]
        · exact hpre v' hm
      next e' he' =>
        rw [Except.error.injEq] at h
        subst h
        obtain ⟨rfl, rfl, hfd⟩ := parseJobOne_invalidJob he'
        exact ⟨[], .dict jd, rest, rfl, by simp, by simp, hfd⟩
    next => simp at h

theorem parseExList_error_inv {l : List Val} :
    ∀ {i0 idx : Nat} {e : ExErr},
      Job.parseExList i0 l = .error (.invalidExercise idx e) →
      ∃ pre ev post, l = pre ++ ev :: post ∧ i0 + pre.length = idx ∧
        (∀ v ∈ pre, (Exercise.from_dict v).isOk = true) ∧
        Exercise.from_dict ev = .error e := by
  induction l with
  | nil => intro i0 idx e h; simp [Job.parseExList] at h
  | cons v rest ih =>
    intro i0 idx e h
    unfold Job.parseExList at h
    split at h
    next ed =>
      split at h
      next ex hex =>
        simp only [exmap_error] at h
        obtain ⟨pre, ev, post, rfl, hlen, hpre, herr⟩ := ih h
        refine ⟨Val.dict ed :: pre, ev, post, rfl, by simp; omega, ?_, herr⟩
        intro v' hv'
        rcases List.mem_cons.mp hv' with rfl | hm
        · simp [hex, Except.isOk, Except.toBool]
        · exact hpre v' hm
      next exc hexc =>
        rw [Except.error.injEq, JobErr.invalidExercise.injEq] at h
        obtain ⟨rfl, rfl⟩ := h
        exact ⟨[], .dict ed, rest, rfl, by simp, by simp, hexc⟩
    next => simp at h

def c9EmptyJobsStage : Val := .dict [("NAME", .s "Warm-up"), ("JOBS", .list [])]

def c9EmomStage : Val :=
  .dict [("NAME", .s "S"), ("JOBS", .list [.dict [("MODE", .s "emom")]])]

/-- C9 (amended): both validators require NAME and a non-empty JOBS/STAGES
list, validate children in document order stopping at the first invalid
child (stage, job, and exercise level alike), and wrap a failing child's
error with positional context that keeps the innermost message as a
suffix; the actual wrapping texts are `invalid stage at index <i>: <inner>`
at workout level (no parent name) and `Stage '<name>': invalid job at
index <i>: <inner>` at stage level — not the claimed
`<parent> '<name>' has invalid <child-kind> at index <i>: <inner>` — and a
failing job whose MODE is exactly `"emom"` is special-cased to the bare
`unsupported MODE 'emom'`, dropping the inner message. -/
theorem c9_validators :
    (∀ (data : Val) (st : Stage), Stage.from_dict data = .ok st →
        st.jobs ≠ []) ∧
    (∀ (data : Val) (w : Workout), Workout.from_dict data = .ok w →
        w.stages ≠ []) ∧
    (∀ d : PyDict, hasKey d "JOBS" = false → hasKey d "jobs" = false →
        Stage.rawJobs d = .error .missingJobs) ∧
    (∀ d : PyDict, hasKey d "STAGES" = false → hasKey d "stages" = false →
        Workout.rawStages d = .error .missingStages) ∧
    Stage.from_dict c9EmptyJobsStage = .error .jobsEmpty ∧
    (∃ p q, StageErr.jobsEmpty.message = p ++ "JOBS" ++ q) ∧
    (∀ (l : List Val) (idx : Nat) (e : StageErr),
        Workout.parseStages 0 l = .error (.invalidStage idx e) →
        ∃ pre sv post, l = pre ++ sv :: post ∧ pre.length = idx ∧
          (∀ v ∈ pre, (Stage.from_dict v).isOk = true) ∧
          Stage.from_dict sv = .error e) ∧
    (∀ (nm : String) (l : List Val) (nm2 : String) (idx : Nat) (e : JobErr),
        Stage.parseJobs nm 0 l = .error (.invalidJob nm2 idx e) →
        ∃ pre jv post, l = pre ++ jv :: post ∧ pre.length = idx ∧
          (∀ v ∈ pre, (Job.from_dict v).isOk = true) ∧
          Job.from_dict jv = .error e) ∧
    (∀ (l : List Val) (idx : Nat) (e : ExErr),
        Job.parseExList 0 l = .error (.invalidExercise idx e) →
        ∃ pre ev post, l = pre ++ ev :: post ∧ pre.length = idx ∧
          (∀ v ∈ pre, (Exercise.from_dict v).isOk = true) ∧
          Exercise.from_dict ev = .error e) ∧
    (∀ (i : Nat) (e : StageErr),
        (WorkoutErr.invalidStage i e).message =
          ("invalid stage at index " ++ toString i ++ ": ") ++ e.message) ∧
    (∀ (n : String) (i : Nat) (e : JobErr),
        (StageErr.invalidJob n i e).message =
          ("Stage " ++ pyRepr n ++ ": invalid job at index " ++ toString i ++
            ": ") ++ e.message) ∧
    Stage.from_dict c9EmomStage = .error .emomSpecial ∧
    StageErr.emomSpecial.message = "unsupported MODE 'emom'" := by
  refine ⟨fun data st h => stage_ok_jobs_ne h,
    fun data w h => workout_ok_stages_ne h,
    ?_, ?_, by rfl,
    ⟨"field '", "' must contain at least one item", by decide⟩,
    ?_, ?_, ?_, ?_, ?_, by rfl, by decide⟩
  · intro d h1 h2
    unfold Stage.rawJobs
    simp [h1, h2]
  · intro d h1 h2
    unfold Workout.rawStages
    simp [h1, h2]
  · intro l idx e h
    obtain ⟨pre, sv, post, rfl, hlen, hpre, herr⟩ := parseStages_error_inv h
    exact ⟨pre, sv, post, rfl, by omega, hpre, herr⟩
  · intro nm l nm2 idx e h
    obtain ⟨pre, jv, post, rfl, hlen, hpre, herr⟩ := parseJobs_error_inv h
    exact ⟨pre, jv, post, rfl, by omega, hpre, herr⟩
  · intro l idx e h
    obtain ⟨pre, ev, post, rfl, hlen, hpre, herr⟩ := parseExList_error_inv h
    exact ⟨pre, ev, post, rfl, by omega, hpre, herr⟩
  · intro i e
    simp [WorkoutErr.message, String.append_assoc]
  · intro n i e
    simp [StageErr.message, String.append_assoc]

def c9GoodStage : Val :=
  .dict [("NAME", .s "G"),
         ("JOBS", .list [.dict [("NAME", .s "J"), ("MODE", .s "AMRAP")]])]

theorem c9_validators_witness :
    Stage.rawJobs [] = .error .missingJobs ∧
    Workout.rawStages [] = .error .missingStages ∧
    (∃ pre sv post, ([c9GoodStage, Val.dict []] : List Val)
        = pre ++ sv :: post ∧ pre.length = 1 ∧
      (∀ v ∈ pre, (Stage.from_dict v).isOk = true) ∧
      Stage.from_dict sv = .error .missingName) := by
  refine ⟨c9_validators.2.2.1 [] rfl rfl, c9_validators.2.2.2.1 [] rfl rfl, ?_⟩
  exact c9_validators.2.2.2.2.2.2.1 [c9GoodStage, .dict []] 1 .missingName
    (by rfl)

def c9WNode : Val := .dict [("NAME", .s "W"), ("STAGES", .list [.dict []])]

/-- C9 counterexample: the workout-level wrap of a failing stage is
`invalid stage at index 0: missing required field 'NAME'` — it contains
neither the parent's name (`'W'`) nor the claimed `has invalid` wording —
and a failing job with MODE exactly `"emom"` is reported as
`unsupported MODE 'emom'`, losing the innermost message entirely. -/
theorem c9_counterexample :
    Workout.from_dict c9WNode = .error (.invalidStage 0 .missingName) ∧
    (WorkoutErr.invalidStage 0 StageErr.missingName).message
      = "invalid stage at index 0: missing required field 'NAME'" ∧
    ¬ ("has invalid".data <:+:
        "invalid stage at index 0: missing required field 'NAME'".data) ∧
    ¬ ("'W'".data <:+:
        "invalid stage at index 0: missing required field 'NAME'".data) ∧
    Stage.from_dict c9EmomStage = .error .emomSpecial ∧
    ¬ ((JobErr.missingName).message.data <:+:
        StageErr.emomSpecial.message.data) := by
  exact ⟨by rfl, by decide, by decide, by decide, by rfl, by decide⟩
